import Mathlib

/-!
Verification development for the feedback fusion subsystem
(models `src/models/*.py` and `src/core/fusion/*.py`).

Conventions of the embedding:
* Python floats are modelled as exact rationals (`ℚ`); float rounding is
  outside the scope of the properties checked here.
* Python `datetime.now()` is injected as a rational `now` (seconds since
  epoch); `uuid4`/time-derived fresh ids are injected as a `freshId` string.
* Python dictionaries are insertion-ordered association lists with
  overwrite-on-rekey semantics (`dictInsert`).
* Python exceptions are modelled with `Except PyError`.
* Mutation of objects (the lazy reliability cache) is modelled by explicit
  state passing: functions return the updated objects next to their result.
-/

/-- Whitespace test matching Python `str.split()` with no separator. -/
def pyIsSpace (c : Char) : Bool :=
  c = ' ' || c = '\t' || c = '\n' || c = '\r' || c.val = 11 || c.val = 12

/-- Accumulator-based splitter over characters: words between whitespace runs. -/
def splitWsAux : List Char → List Char → List (List Char)
  | [], acc => if acc.isEmpty then [] else [acc.reverse]
  | c :: cs, acc =>
    if pyIsSpace c then
      if acc.isEmpty then splitWsAux cs [] else acc.reverse :: splitWsAux cs []
    else splitWsAux cs (c :: acc)

/-- Python `s.split()`: whitespace-separated words, empties discarded. -/
def pyWords (s : String) : List String :=
  (splitWsAux s.data []).map String.mk

/-- Python `s.lower()` (ASCII case folding; CJK characters are unaffected). -/
def pyLower (s : String) : String :=
  String.mk (s.data.map Char.toLower)

/-- Leading-match test: does the second list start with the first? -/
def chunkAt : List Char → List Char → Bool
  | [], _ => true
  | _ :: _, [] => false
  | a :: as, b :: bs => a = b && chunkAt as bs

/-- Containment of a character chunk anywhere in a list. -/
def hasChunk (needle : List Char) : List Char → Bool
  | [] => needle.isEmpty
  | b :: bs => chunkAt needle (b :: bs) || hasChunk needle bs

/-- Python `needle in hay` substring test. -/
def pyIn (needle hay : String) : Bool :=
  hasChunk needle.data hay.data

/-- Python `len(s)` (number of characters). -/
def pyLen (s : String) : ℕ := s.data.length

/-- Size of the set intersection of two word lists (Python `len(set(a) & set(b))`). -/
def interCount (a b : List String) : ℕ :=
  (a.dedup.filter (fun x => b.contains x)).length

/-- Size of the set union of two word lists (Python `len(set(a) | set(b))`). -/
def unionCount (a b : List String) : ℕ :=
  ((a ++ b).dedup).length

/-- Set-difference count: elements of `a`'s set that are not in `b` (Python `len(set(a) - set(b))`). -/
def diffCount (a b : List String) : ℕ :=
  (a.dedup.filter (fun x => ¬ b.contains x)).length

/-- Python dict lookup (first binding; keys are unique in a reachable dict). -/
def dictGet (l : List (String × α)) (k : String) : Option α :=
  l.lookup k

/-- Python dict assignment: overwrite the existing binding in place, else append. -/
def dictInsert (l : List (String × α)) (k : String) (v : α) : List (String × α) :=
  if (l.lookup k).isSome then
    l.map (fun p => if p.1 = k then (k, v) else p)
  else l ++ [(k, v)]

/-- Python `max(d, key=d.get)`: the first key attaining the maximal value. -/
def dictArgmax : List (String × ℚ) → Option (String × ℚ)
  | [] => none
  | p :: ps => some (ps.foldl (fun best q => if best.2 < q.2 then q else best) p)

/-- Python `max(xs, key=f)`: first element attaining the maximal measure. -/
def listArgmaxBy (f : α → ℚ) : List α → Option α
  | [] => none
  | x :: xs => some ((xs.foldl (fun best q => if f best < f q then q else best) x))

/-- NumPy `argmax`: index of the first maximal entry. -/
def npArgmax (l : List ℚ) : ℕ :=
  (l.foldl (fun (st : ℕ × ℕ × ℚ) v =>
      let (besti, i, bestv) := st
      if bestv < v then (i, i + 1, v) else (besti, i + 1, bestv)) (0, 0, l.headD 0)).1

/-- Digit-by-digit rendering of a natural number (own fuel recursion so the
kernel can evaluate it). -/
def natToStrAux : ℕ → ℕ → List Char
  | 0, _ => []
  | fuel + 1, n =>
    if n = 0 then []
    else natToStrAux fuel (n / 10) ++ [Char.ofNat (48 + n % 10)]

/-- Decimal rendering of a natural number. -/
def natToStr (n : ℕ) : String :=
  if n = 0 then "0" else String.mk (natToStrAux (n + 1) n)

/-- Decimal rendering of an integer. -/
def intToStr (i : ℤ) : String :=
  if i < 0 then "-" ++ natToStr i.natAbs else natToStr i.natAbs

/-- Round-half-even to an integer, as Python float formatting does. -/
def roundHalfEven (q : ℚ) : ℤ :=
  let fl := ⌊q⌋
  let frac := q - fl
  if frac < 1/2 then fl
  else if 1/2 < frac then fl + 1
  else if fl % 2 = 0 then fl else fl + 1

/-- Python `f-string` formatting `:.2f` of a (nonnegative in all uses) rational. -/
def formatQ2 (q : ℚ) : String :=
  let cents := roundHalfEven (q * 100)
  let sign := if cents < 0 then "-" else ""
  let a := cents.natAbs
  let r := a % 100
  sign ++ natToStr (a / 100) ++ "." ++ (if r < 10 then "0" else "") ++ natToStr r

/-- Python exception outcomes reachable in the fusion subsystem.
`nanWeights` is the embedding's marker for the point where NumPy would
produce NaN weights from a zero-denominator division (rationals have no NaN,
so the embedding stops there instead of flowing NaNs onward). -/
inductive PyError
  | valueError (msg : String)
  | attributeError (msg : String)
  | typeError (msg : String)
  | stopIteration
  | nanWeights
deriving DecidableEq, Repr

/-- Relation type enumeration of `src/models/relation_model.py` (`RelationType`). -/
inductive RelationType
  | support
  | oppose
  | complement
  | refine
  | temporal
  | causal
deriving DecidableEq, Repr

/-- Python `RelationType.<member>.value`. -/
def RelationType.value : RelationType → String
  | .support => "support"
  | .oppose => "oppose"
  | .complement => "complement"
  | .refine => "refine"
  | .temporal => "temporal"
  | .causal => "causal"

/-- Python `RelationType(s)` lookup by value (used when a string is passed). -/
def RelationType.fromValue? (s : String) : Option RelationType :=
  if s = "support" then some .support
  else if s = "oppose" then some .oppose
  else if s = "complement" then some .complement
  else if s = "refine" then some .refine
  else if s = "temporal" then some .temporal
  else if s = "causal" then some .causal
  else none

/-- Relation edge of `RelationModel.__init__` after construction. The
`rmeta` field keeps the numeric metadata written by the fusion strategies
(for instance `fusion_weight`). -/
structure RelationModel where
  source_id : String
  target_id : String
  relation_type : RelationType
  strength : ℚ
  rmeta : List (String × ℚ)
  relation_id : String
deriving DecidableEq, Repr

/-- Normal-path constructor (relation type passed as the enum member, as all
fusion-code call sites do): clamps strength to [0,1] and derives the id. -/
def RelationModel.make (src tgt : String) (rt : RelationType) (strength : ℚ)
    (md : List (String × ℚ)) : RelationModel :=
  { source_id := src
    target_id := tgt
    relation_type := rt
    strength := max 0 (min 1 strength)
    rmeta := md
    relation_id := src ++ "_" ++ tgt ++ "_" ++ rt.value }

/-- Faithful dynamically-typed constructor for `RelationModel.__init__`: the
relation type argument may be the enum member or a raw string.  Line 56 of
the source converts strings through `RelationType(...)` (raising `ValueError`
for unrecognized values), but line 59 computes `relation_id` from the
*original* parameter's `.value`, so a string argument — even a recognized
one — raises `AttributeError` there. -/
def RelationModel.init (src tgt : String) (rt : RelationType ⊕ String)
    (strength : ℚ) (md : List (String × ℚ)) : Except PyError RelationModel := do
  let rtVal ← match rt with
    | .inl e => pure e
    | .inr s =>
      match RelationType.fromValue? s with
      | some e => pure e
      | none => throw (PyError.valueError s)
  let idSuffix ← match rt with
    | .inl e => pure e.value
    | .inr _ => throw (PyError.attributeError "value")
  pure { source_id := src
         target_id := tgt
         relation_type := rtVal
         strength := max 0 (min 1 strength)
         rmeta := md
         relation_id := src ++ "_" ++ tgt ++ "_" ++ idSuffix }

/-- Relation graph of `RelationGraph.__init__`: the `relations` dict keyed by
relation id, and the `feedback_relations` index keyed by feedback id. -/
structure RelationGraph where
  relations : List (String × RelationModel)
  feedback_relations : List (String × List String)
deriving DecidableEq, Repr

/-- Fresh graph. -/
def RelationGraph.empty : RelationGraph :=
  { relations := [], feedback_relations := [] }

/-- Index update: create the key with an empty list when absent, then append. -/
def indexAppend (l : List (String × List String)) (k v : String) :
    List (String × List String) :=
  if (l.lookup k).isSome then
    l.map (fun p => if p.1 = k then (p.1, p.2 ++ [v]) else p)
  else l ++ [(k, [v])]

/-- Faithful `RelationGraph.add_relation`: the `relations` dict entry is
overwritten by key, while `feedback_relations` gets one more appended id for
the source and one for the target on every call. -/
def RelationGraph.add_relation (g : RelationGraph) (r : RelationModel) : RelationGraph :=
  { relations := dictInsert g.relations r.relation_id r
    feedback_relations :=
      indexAppend (indexAppend g.feedback_relations r.source_id r.relation_id)
        r.target_id r.relation_id }

/-- Faithful `RelationGraph.get_relations_by_feedback`. -/
def RelationGraph.get_relations_by_feedback (g : RelationGraph) (fid : String) :
    List RelationModel :=
  match g.feedback_relations.lookup fid with
  | none => []
  | some ids => ids.filterMap (fun rid => dictGet g.relations rid)

/-- Concrete relation used in the C9 counterexample. -/
def c9rel : RelationModel := RelationModel.make "a" "b" RelationType.support (1/2) []

/-- Graph obtained by adding the same (source, target, type) triple twice. -/
def c9graph : RelationGraph :=
  (RelationGraph.empty.add_relation c9rel).add_relation c9rel

/-- Source enumeration of `src/models/metadata_model.py` (`SourceType`). -/
inductive SourceType
  | humanDoctor
  | humanPatient
  | humanNurse
  | systemImaging
  | systemLab
  | systemEhr
  | knowledgeGraph
  | knowledgeLiterature
  | selfAssessment
deriving DecidableEq, Repr

/-- Python `SourceType.<member>.value`. -/
def SourceType.value : SourceType → String
  | .humanDoctor => "human.doctor"
  | .humanPatient => "human.patient"
  | .humanNurse => "human.nurse"
  | .systemImaging => "system.imaging"
  | .systemLab => "system.lab"
  | .systemEhr => "system.ehr"
  | .knowledgeGraph => "knowledge.graph"
  | .knowledgeLiterature => "knowledge.literature"
  | .selfAssessment => "self.assessment"

/-- Python `SourceType(s)` lookup by value. -/
def SourceType.fromValue? (s : String) : Option SourceType :=
  if s = "human.doctor" then some .humanDoctor
  else if s = "human.patient" then some .humanPatient
  else if s = "human.nurse" then some .humanNurse
  else if s = "system.imaging" then some .systemImaging
  else if s = "system.lab" then some .systemLab
  else if s = "system.ehr" then some .systemEhr
  else if s = "knowledge.graph" then some .knowledgeGraph
  else if s = "knowledge.literature" then some .knowledgeLiterature
  else if s = "self.assessment" then some .selfAssessment
  else none

/-- Feedback-type enumeration of `src/models/metadata_model.py` (`FeedbackType`). -/
inductive FeedbackType
  | numeric
  | textual
  | structuredT
  | multimodal
  | diagnostic
  | therapeutic
  | prognostic
  | administrative
deriving DecidableEq, Repr

/-- Python `FeedbackType.<member>.value`. -/
def FeedbackType.value : FeedbackType → String
  | .numeric => "numeric"
  | .textual => "textual"
  | .structuredT => "structured"
  | .multimodal => "multimodal"
  | .diagnostic => "diagnostic"
  | .therapeutic => "therapeutic"
  | .prognostic => "prognostic"
  | .administrative => "administrative"

/-- Python `FeedbackType(s)` lookup by value. -/
def FeedbackType.fromValue? (s : String) : Option FeedbackType :=
  if s = "numeric" then some .numeric
  else if s = "textual" then some .textual
  else if s = "structured" then some .structuredT
  else if s = "multimodal" then some .multimodal
  else if s = "diagnostic" then some .diagnostic
  else if s = "therapeutic" then some .therapeutic
  else if s = "prognostic" then some .prognostic
  else if s = "administrative" then some .administrative
  else none

/-- Source field of metadata: either the enum member or a custom string
(`MetadataModel.__init__` keeps the raw string when the enum lookup fails). -/
inductive PySource
  | enum (s : SourceType)
  | custom (s : String)
deriving DecidableEq, Repr

/-- Python `hasattr(source, "value")`. -/
def PySource.hasValueAttr : PySource → Bool
  | .enum _ => true
  | .custom _ => false

/-- Python `source.value if hasattr(source, "value") else str(source)`. -/
def PySource.valueStr : PySource → String
  | .enum s => s.value
  | .custom s => s

/-- Feedback-type field of metadata: enum member or custom string. -/
inductive PyFType
  | enum (t : FeedbackType)
  | custom (t : String)
deriving DecidableEq, Repr

/-- Python `hasattr(feedback_type, "value")`. -/
def PyFType.hasValueAttr : PyFType → Bool
  | .enum _ => true
  | .custom _ => false

/-- Python `feedback_type.value if hasattr(...) else str(feedback_type)`. -/
def PyFType.valueStr : PyFType → String
  | .enum t => t.value
  | .custom t => t

/-- Values stored in structured content dictionaries. -/
inductive PyVal
  | pnum (q : ℚ)
  | pstr (s : String)
  | pother (n : ℕ)
deriving DecidableEq, Repr

/-- Python `repr`/`str` of a structured value (rationals are rendered exactly;
only the length of this string is ever consumed, by the content-length
features). -/
def PyVal.reprStr : PyVal → String
  | .pnum q => (if q.num < 0 then "-" else "") ++ natToStr q.num.natAbs ++
      (if q.den = 1 then "" else "/" ++ natToStr q.den)
  | .pstr s => "\x27" ++ s ++ "\x27"
  | .pother n => "<object " ++ natToStr n ++ ">"

/-- Python `str(dict)` for structured data (used only for its length). -/
def reprDict (d : List (String × PyVal)) : String :=
  "\x7b" ++ String.intercalate ", "
    (d.map (fun p => "\x27" ++ p.1 ++ "\x27: " ++ p.2.reprStr)) ++ "\x7d"

/-- Content variants of `src/models/content_model.py` used by the fusion code:
text, structured, and scalar (the latter exercises only the default branches
of the feature extractors, via the `hasattr` dispatch). -/
inductive ContentModel
  | text (t : String) (language : String)
  | structured (data : List (String × PyVal))
  | scalar (value : ℚ) (unit : String)
deriving DecidableEq, Repr

/-- Python `content.content_type.value`. -/
def ContentModel.content_type : ContentModel → String
  | .text _ _ => "text"
  | .structured _ => "structured"
  | .scalar _ _ => "scalar"

/-- Python `hasattr(content, "text")`. -/
def ContentModel.hasText : ContentModel → Bool
  | .text _ _ => true
  | _ => false

/-- Python `hasattr(content, "data")`. -/
def ContentModel.hasData : ContentModel → Bool
  | .structured _ => true
  | _ => false

/-- Text payload (meaningful only under `hasText`). -/
def ContentModel.textOf : ContentModel → String
  | .text t _ => t
  | _ => ""

/-- Structured payload (meaningful only under `hasData`). -/
def ContentModel.dataOf : ContentModel → List (String × PyVal)
  | .structured d => d
  | _ => []

/-- Python `str(content)`: the object repr for the mixed-content fallback of
the RL content fusion (only its textual presence matters there). -/
def ContentModel.strOf : ContentModel → String
  | .text t _ => t
  | .structured d => reprDict d
  | .scalar _ _ => "<ContentModel object>"

/-- Metadata record of `MetadataModel.__init__` after construction.
Timestamps are rational seconds since the epoch. -/
structure MetadataModel where
  source : PySource
  feedback_type : PyFType
  timestamp : ℚ
  feedback_id : String
  reliability : Option ℚ
  tags : List String
  context_id : Option String
deriving DecidableEq, Repr

/-- Constructor path of `MetadataModel.__init__` when the source/type are
passed as strings: the enum lookup is attempted and the raw string is kept on
`ValueError`. -/
def mkPySource (s : String) : PySource :=
  match SourceType.fromValue? s with
  | some e => .enum e
  | none => .custom s

/-- String-argument path for the feedback type, mirroring `mkPySource`. -/
def mkPyFType (s : String) : PyFType :=
  match FeedbackType.fromValue? s with
  | some e => .enum e
  | none => .custom s

/-- Reliability estimate of `MetadataModel.calculate_reliability` with all
optional scores defaulted, as every fusion call site does.  Returns the score
together with the updated metadata: the source caches the computed value into
`self.reliability` (this write is what claim C6 is about). -/
def MetadataModel.calculate_reliability (now : ℚ) (m : MetadataModel) :
    ℚ × MetadataModel :=
  match m.reliability with
  | some r => (r, m)
  | none =>
    let source_reliability : ℚ :=
      match m.source with
      | .enum SourceType.humanDoctor => 9/10
      | .enum SourceType.humanNurse => 8/10
      | .enum SourceType.humanPatient => 7/10
      | .enum SourceType.systemImaging => 85/100
      | .enum SourceType.systemLab => 9/10
      | .enum SourceType.systemEhr => 8/10
      | .enum SourceType.knowledgeGraph => 85/100
      | .enum SourceType.knowledgeLiterature => 8/10
      | .enum SourceType.selfAssessment => 6/10
      | .custom _ => 1/2
    let content_consistency : ℚ := 7/10
    let time_relevance : ℚ := max 0 (1 - ((now - m.timestamp) / 86400) / 365)
    let evidence_support : ℚ := 6/10
    let reliability := (4/10) * source_reliability + (3/10) * content_consistency +
      (2/10) * time_relevance + (1/10) * evidence_support
    (reliability, { m with reliability := some reliability })

/-- Feedback item of `src/models/feedback_model.py` (`FeedbackModel`);
`feedback_id` is read off the metadata as in the source. -/
structure FeedbackModel where
  metadata : MetadataModel
  content : ContentModel
  relations : List RelationModel
deriving DecidableEq, Repr

/-- Python `feedback.feedback_id` (copied from the metadata on construction). -/
def FeedbackModel.feedback_id (f : FeedbackModel) : String :=
  f.metadata.feedback_id

/-- Python `FeedbackModel.get_reliability`: return the stored score, else
compute (and thereby cache) it through `calculate_reliability`. -/
def FeedbackModel.get_reliability (now : ℚ) (f : FeedbackModel) :
    ℚ × FeedbackModel :=
  match f.metadata.reliability with
  | some r => (r, f)
  | none =>
    let (r, m) := f.metadata.calculate_reliability now
    (r, { f with metadata := m })

/-- Value-only projection of `get_reliability` (the score a read returns). -/
def relVal (now : ℚ) (f : FeedbackModel) : ℚ :=
  (f.get_reliability now).1

/-- Item-only projection of `get_reliability` (the item after the lazy cache). -/
def cacheRel (now : ℚ) (f : FeedbackModel) : FeedbackModel :=
  (f.get_reliability now).2

/-- C8: constructing a Relation clamps any strength silently into [0,1]
(values below 0 become 0, above 1 become 1, in-range values are kept);
construction with one of the six recognized relation types (the enum
members) succeeds, while construction with an unrecognized relation type
fails with a ValueError at construction time. -/
theorem C8_relation_construction (src tgt : String) (q : ℚ)
    (md : List (String × ℚ)) :
    (∀ rt : RelationType,
      RelationModel.init src tgt (Sum.inl rt) q md =
        Except.ok (RelationModel.make src tgt rt q md) ∧
      0 ≤ (RelationModel.make src tgt rt q md).strength ∧
      (RelationModel.make src tgt rt q md).strength ≤ 1 ∧
      (q < 0 → (RelationModel.make src tgt rt q md).strength = 0) ∧
      (1 < q → (RelationModel.make src tgt rt q md).strength = 1) ∧
      (0 ≤ q → q ≤ 1 → (RelationModel.make src tgt rt q md).strength = q)) ∧
    (∀ s : String, RelationType.fromValue? s = none →
      RelationModel.init src tgt (Sum.inr s) q md =
        Except.error (PyError.valueError s)) := by
  constructor
  · intro rt
    refine ⟨rfl, ?_, ?_, ?_, ?_, ?_⟩
    · exact le_max_left 0 _
    · exact max_le (by norm_num) (min_le_left 1 q)
    · intro hq
      simp only [RelationModel.make]
      rw [min_eq_right (le_of_lt (lt_trans hq one_pos)), max_eq_left (le_of_lt hq)]
    · intro hq
      simp only [RelationModel.make]
      rw [min_eq_left (le_of_lt hq), max_eq_right zero_le_one]
    · intro h0 h1
      simp only [RelationModel.make]
      rw [min_eq_right h1, max_eq_right h0]
  · intro s hs
    simp only [RelationModel.init, hs]
    rfl

/-- Witness for C8 at concrete inputs, including the enum member the fusion
code itself misses (a string "derived_from" is not a recognized type). -/
theorem C8_relation_construction_witness :
    0 ≤ (RelationModel.make "a" "b" RelationType.support (5/2) []).strength ∧
    (RelationModel.make "a" "b" RelationType.support (5/2) []).strength = 1 ∧
    RelationModel.init "a" "b" (Sum.inr "derived_from") (5/2) [] =
      Except.error (PyError.valueError "derived_from") := by
  refine ⟨((C8_relation_construction "a" "b" (5/2) []).1 RelationType.support).2.1,
    ((C8_relation_construction "a" "b" (5/2) []).1 RelationType.support).2.2.2.2.1
      (by norm_num),
    (C8_relation_construction "a" "b" (5/2) []).2 "derived_from" rfl⟩

/-- C9 counterexample: after adding the identical (source, target, type)
triple twice, the `relations` dict does hold exactly one stored relation, but
`get_relations_by_feedback` on an endpoint returns that relation twice, not
exactly once as the claim states (`add_relation` appends to the
`feedback_relations` index unconditionally). -/
theorem C9_counterexample :
    c9graph.relations = [(c9rel.relation_id, c9rel)] ∧
    c9graph.get_relations_by_feedback "a" = [c9rel, c9rel] ∧
    ¬ c9graph.get_relations_by_feedback "a" = [c9rel] := by
  refine ⟨rfl, rfl, ?_⟩
  intro h
  rw [show c9graph.get_relations_by_feedback "a" = [c9rel, c9rel] from rfl] at h
  simp at h

/-- C9 amended: relation identity in the graph store is the (source, target,
type) triple — re-adding an identical triple overwrites the stored relation,
so the graph holds exactly one relation for the triple — but every add also
appends one index entry per endpoint, so `get_relations_by_feedback` returns
the stored relation once per add (twice after a re-add) for each endpoint. -/
theorem C9_amended (r : RelationModel) (hne : r.source_id ≠ r.target_id) :
    ((RelationGraph.empty.add_relation r).add_relation r).relations =
      [(r.relation_id, r)] ∧
    ((RelationGraph.empty.add_relation r).add_relation r).get_relations_by_feedback
      r.source_id = [r, r] ∧
    ((RelationGraph.empty.add_relation r).add_relation r).get_relations_by_feedback
      r.target_id = [r, r] := by
  have hne2 : (r.target_id == r.source_id) = false := by
    exact beq_false_of_ne (Ne.symm hne)
  have hne3 : (r.source_id == r.target_id) = false := by
    exact beq_false_of_ne hne
  constructor
  · simp [RelationGraph.add_relation, RelationGraph.empty, dictInsert, List.lookup]
  · constructor
    · simp [RelationGraph.add_relation, RelationGraph.empty, dictInsert, indexAppend,
        RelationGraph.get_relations_by_feedback, dictGet, List.lookup, hne2, hne3,
        hne, Ne.symm hne]
    · simp [RelationGraph.add_relation, RelationGraph.empty, dictInsert, indexAppend,
        RelationGraph.get_relations_by_feedback, dictGet, List.lookup, hne2, hne3,
        hne, Ne.symm hne]

/-- Witness for C9 amended at the concrete relation of the counterexample. -/
theorem C9_amended_witness :
    ((RelationGraph.empty.add_relation c9rel).add_relation c9rel).relations =
      [(c9rel.relation_id, c9rel)] ∧
    ((RelationGraph.empty.add_relation c9rel).add_relation
        c9rel).get_relations_by_feedback c9rel.source_id = [c9rel, c9rel] :=
  ⟨(C9_amended c9rel (by decide)).1, (C9_amended c9rel (by decide)).2.1⟩

/-- Strategy selection cascade of `HybridFusionEngine.select_strategy`
(`src/core/fusion/hybrid_fusion.py`, lines 40-93), translated clause by
clause from the source. -/
def selectStrategy (feedbacks : List FeedbackModel) (task_type : Option String) :
    String :=
  if feedbacks.length ≤ 2 then "attention"
  else if feedbacks.any (fun f => f.relations.length > 0) then "graph"
  else if 3 ≤ ((feedbacks.map (fun f => f.metadata.source.valueStr)).dedup).length
    then "graph"
  else if task_type = some "long_term_optimization" ∨
      task_type = some "sequential_decision" then "rl"
  else if task_type = some "diagnostic" ∨ task_type = some "therapeutic" then "graph"
  else if task_type = some "information_retrieval" ∨
      task_type = some "question_answering" then "attention"
  else if 3 ≤ ((feedbacks.map (fun f => f.metadata.feedback_type.valueStr)).dedup).length
    then "graph"
  else "attention"

/-- Specification-side cascade, written from the words of the claim: first
match of (1) at most 2 items, (2) any item carrying a relation, (3) at least
3 distinct source categories, (4)-(6) the task-type buckets, (7) at least 3
distinct feedback kinds, (8) the default. -/
def selectStrategySpec (feedbacks : List FeedbackModel) (task_type : Option String) :
    String :=
  if feedbacks.length ≤ 2 then "attention"
  else if ∃ f ∈ feedbacks, f.relations ≠ [] then "graph"
  else if 3 ≤ ((feedbacks.map (fun f => f.metadata.source.valueStr)).toFinset).card
    then "graph"
  else if task_type ∈ [some "long_term_optimization", some "sequential_decision"]
    then "rl"
  else if task_type ∈ [some "diagnostic", some "therapeutic"] then "graph"
  else if task_type ∈ [some "information_retrieval", some "question_answering"]
    then "attention"
  else if 3 ≤ ((feedbacks.map
      (fun f => f.metadata.feedback_type.valueStr)).toFinset).card then "graph"
  else "attention"

/-- C2: the strategy selector is the pure deterministic cascade stated in the
claim (first match in the given order), and in particular 2 items with no
relations and no task type select the attention strategy, while 3 items
where one carries a SUPPORT relation to another select the graph strategy. -/
theorem C2_select_strategy (feedbacks : List FeedbackModel)
    (task_type : Option String) :
    selectStrategy feedbacks task_type = selectStrategySpec feedbacks task_type ∧
    (feedbacks.length = 2 → (∀ f ∈ feedbacks, f.relations = []) → task_type = none →
      selectStrategy feedbacks task_type = "attention") ∧
    (feedbacks.length = 3 →
      (∃ f ∈ feedbacks, ∃ r ∈ f.relations,
        r.relation_type = RelationType.support ∧
        ∃ g ∈ feedbacks, r.target_id = g.feedback_id) →
      selectStrategy feedbacks task_type = "graph") := by
  refine ⟨?_, ?_, ?_⟩
  · simp only [selectStrategy, selectStrategySpec, List.card_toFinset,
      List.any_eq_true, gt_iff_lt, List.length_pos, List.mem_cons,
      List.not_mem_nil, or_false, List.mem_singleton, decide_eq_true_eq]
  · intro h2 _ _
    simp [selectStrategy, h2]
  · intro h3 hrel
    obtain ⟨f, hf, r, hr, _, _⟩ := hrel
    have hlen : ¬ feedbacks.length ≤ 2 := by omega
    have hany : (feedbacks.any fun f => f.relations.length > 0) = true := by
      refine List.any_eq_true.mpr ⟨f, hf, ?_⟩
      simpa [List.length_pos] using List.ne_nil_of_mem hr
    simp [selectStrategy, hlen, hany]

/-- Commonly reused concrete item constructor for witnesses: enum source and
type, text content, empty tags, timestamp 0. -/
def sampleItem (id : String) (src : SourceType) (ft : FeedbackType) (txt : String)
    (rel : Option ℚ) (rels : List RelationModel) : FeedbackModel :=
  { metadata := { source := .enum src, feedback_type := .enum ft, timestamp := 0,
                  feedback_id := id, reliability := rel, tags := [],
                  context_id := none },
    content := .text txt "zh-CN",
    relations := rels }

/-- Scenario items: two plain items, and a 3-item set where the first
carries a SUPPORT relation to the second. -/
def scA1 : FeedbackModel := sampleItem "a1" .humanDoctor .diagnostic "t one" (some (4/5)) []

/-- Second item of scenario A. -/
def scA2 : FeedbackModel := sampleItem "a2" .humanPatient .textual "t two" (some (3/5)) []

/-- First item of scenario B, with a SUPPORT relation to the second. -/
def scB1 : FeedbackModel := sampleItem "b1" .humanDoctor .diagnostic "u one"
  (some (4/5)) [RelationModel.make "b1" "b2" RelationType.support (9/10) []]

/-- Second item of scenario B. -/
def scB2 : FeedbackModel := sampleItem "b2" .humanPatient .textual "u two" (some (3/5)) []

/-- Third item of scenario B. -/
def scB3 : FeedbackModel := sampleItem "b3" .knowledgeGraph .therapeutic "u three"
  (some (1/2)) []

/-- Witness for C2 on the two concrete scenarios of the claim. -/
theorem C2_select_strategy_witness :
    selectStrategy [scA1, scA2] none = "attention" ∧
    selectStrategy [scB1, scB2, scB3] none = "graph" := by
  constructor
  · refine (C2_select_strategy [scA1, scA2] none).2.1 rfl ?_ rfl
    intro f hf
    fin_cases hf <;> rfl
  · refine (C2_select_strategy [scB1, scB2, scB3] none).2.2 rfl ?_
    refine ⟨scB1, List.mem_cons_self _ _,
      RelationModel.make "b1" "b2" RelationType.support (9/10) [], ?_, rfl,
      scB2, List.mem_cons_of_mem _ (List.mem_cons_self _ _), rfl⟩
    exact List.mem_singleton.mpr rfl

/-- Enum value of the source under the `hasattr(source, "value")` guard
(meaningful only for enum sources; the guard is always checked first). -/
def PySource.enumValue : PySource → String
  | .enum s => s.value
  | .custom s => s

/-- Support-relation score of `GraphBasedFusion._detect_support_relation`
(`src/core/fusion/graph_fusion.py`, lines 88-181). -/
def detectSupport (f1 f2 : FeedbackModel) : ℚ :=
  if f1.content.content_type ≠ f2.content.content_type then 0
  else if f1.content.hasText ∧ f2.content.hasText then
    let t1 := pyLower f1.content.textOf
    let t2 := pyLower f2.content.textOf
    let words1 := pyWords t1
    let words2 := pyWords t2
    let inter := interCount words1 words2
    let uni := unionCount words1 words2
    if uni = 0 then 0
    else
      let similarity : ℚ := (inter : ℚ) / (uni : ℚ)
      let source_factor : ℚ :=
        if f1.metadata.source.hasValueAttr ∧ f2.metadata.source.hasValueAttr then
          let s1 := f1.metadata.source.enumValue
          let s2 := f2.metadata.source.enumValue
          if s1 = s2 then 8/10
          else if (pyIn "doctor" s1 ∧ pyIn "system" s2) ∨
              (pyIn "system" s1 ∧ pyIn "doctor" s2) then 12/10
          else 1
        else 1
      min 1 (similarity * source_factor)
  else if f1.content.hasData ∧ f2.content.hasData then
    let d1 := f1.content.dataOf
    let d2 := f2.content.dataOf
    let common := (d1.map Prod.fst).dedup.filter (fun k => (d2.map Prod.fst).contains k)
    if common = [] then 0
    else
      let similarity_sum := (common.map (fun key =>
        match dictGet d1 key, dictGet d2 key with
        | some (PyVal.pnum a), some (PyVal.pnum b) =>
          let mv := max |a| |b|
          if mv = 0 then (1 : ℚ)
          else max 0 (1 - |a - b| / mv)
        | some (PyVal.pstr a), some (PyVal.pstr b) =>
          if pyLower a = pyLower b then (1 : ℚ)
          else
            let w1 := pyWords (pyLower a)
            let w2 := pyWords (pyLower b)
            if 0 < unionCount w1 w2 then
              (interCount w1 w2 : ℚ) / (unionCount w1 w2 : ℚ)
            else 0
        | some v1, some v2 => if v1 = v2 then (1 : ℚ) else 0
        | _, _ => 0)).sum
      similarity_sum / (common.length : ℚ)
  else 0

/-- Negation markers of `_detect_oppose_relation`. -/
def negationWords : List String :=
  ["不", "否", "非", "无", "没有", "不是", "不能", "不应", "不宜", "禁止",
   "no", "not", "never", "disagree"]

/-- Antonym pairs used by the text branch of `_detect_oppose_relation`. -/
def medicalOpposeTermsText : List (String × String) :=
  [("增加", "减少"), ("升高", "降低"), ("提高", "降低"), ("加强", "减弱"),
   ("促进", "抑制"), ("激活", "抑制"), ("开始", "停止"), ("用药", "禁用"),
   ("适用", "禁忌"), ("建议", "不建议"), ("推荐", "不推荐")]

/-- Antonym pairs used by the structured branch (one extra pair). -/
def medicalOpposeTermsData : List (String × String) :=
  medicalOpposeTermsText ++ [("阳性", "阴性")]

/-- Oppose-relation score of `GraphBasedFusion._detect_oppose_relation`
(`src/core/fusion/graph_fusion.py`, lines 183-321). -/
def detectOppose (f1 f2 : FeedbackModel) : ℚ :=
  if f1.content.content_type ≠ f2.content.content_type then 0
  else if f1.content.hasText ∧ f2.content.hasText then
    let t1 := pyLower f1.content.textOf
    let t2 := pyLower f2.content.textOf
    let hneg1 := negationWords.any (fun w => pyIn w t1)
    let hneg2 := negationWords.any (fun w => pyIn w t2)
    let negation_factor : ℚ :=
      if (hneg1 ∧ ¬ hneg2) ∨ (¬ hneg1 ∧ hneg2) then 1 else 1/2
    let words1 := pyWords t1
    let words2 := pyWords t2
    let uni := unionCount words1 words2
    if uni = 0 then 0
    else
      let similarity : ℚ := (interCount words1 words2 : ℚ) / (uni : ℚ)
      let medical_oppose_score : ℚ := (3/10) *
        ((medicalOpposeTermsText.filter (fun p =>
          (pyIn p.1 t1 ∧ pyIn p.2 t2) ∨ (pyIn p.2 t1 ∧ pyIn p.1 t2))).length : ℚ)
      let source_factor : ℚ :=
        if f1.metadata.source.hasValueAttr ∧ f2.metadata.source.hasValueAttr ∧
            pyIn "doctor" f1.metadata.source.enumValue ∧
            pyIn "doctor" f2.metadata.source.enumValue then 12/10
        else 1
      min 1 ((similarity * negation_factor + medical_oppose_score) * source_factor)
  else if f1.content.hasData ∧ f2.content.hasData then
    let d1 := f1.content.dataOf
    let d2 := f2.content.dataOf
    let common := (d1.map Prod.fst).dedup.filter (fun k => (d2.map Prod.fst).contains k)
    if common = [] then 0
    else
      let difference_sum := (common.map (fun key =>
        match dictGet d1 key, dictGet d2 key with
        | some (PyVal.pnum a), some (PyVal.pnum b) =>
          if (0 < a ∧ b < 0) ∨ (a < 0 ∧ 0 < b) then (1 : ℚ)
          else
            let mv := max |a| |b|
            if mv = 0 then 0
            else min 1 (|a - b| / mv)
        | some (PyVal.pstr a), some (PyVal.pstr b) =>
          let v1 := pyLower a
          let v2 := pyLower b
          if medicalOpposeTermsData.any (fun p =>
              (pyIn p.1 v1 ∧ pyIn p.2 v2) ∨ (pyIn p.2 v1 ∧ pyIn p.1 v2)) then (1 : ℚ)
          else if v1 ≠ v2 then
            let w1 := pyWords v1
            let w2 := pyWords v2
            if 0 < unionCount w1 w2 then
              1 - (interCount w1 w2 : ℚ) / (unionCount w1 w2 : ℚ)
            else 1/2
          else 0
        | some v1, some v2 => if v1 ≠ v2 then (1 : ℚ) else 0
        | _, _ => 0)).sum
      difference_sum / (common.length : ℚ)
  else 0

/-- Complement word pairs of `_detect_complement_relation` (text branch). -/
def medicalComplementPairs : List (String × String) :=
  [("症状", "治疗"), ("诊断", "预后"), ("检查", "结果"), ("用药", "剂量"),
   ("病因", "预防"), ("适应症", "禁忌症"), ("主诉", "体征"), ("病史", "家族史"),
   ("既往史", "现病史"), ("检验", "影像"), ("治疗", "随访"), ("手术", "康复")]

/-- Complement key pairs of `_detect_complement_relation` (structured branch). -/
def medicalComplementKeys : List (String × String) :=
  [("症状", "治疗"), ("诊断", "预后"), ("检查", "结果"), ("用药", "剂量"),
   ("病因", "预防"), ("适应症", "禁忌症")]

/-- Complement-relation score of `GraphBasedFusion._detect_complement_relation`
(`src/core/fusion/graph_fusion.py`, lines 323-428). -/
def detectComplement (f1 f2 : FeedbackModel) : ℚ :=
  if f1.content.content_type ≠ f2.content.content_type then 6/10
  else if f1.content.hasText ∧ f2.content.hasText then
    let t1 := pyLower f1.content.textOf
    let t2 := pyLower f2.content.textOf
    let words1 := pyWords t1
    let words2 := pyWords t2
    let total_unique := diffCount words1 words2 + diffCount words2 words1
    let total_words := unionCount words1 words2
    if total_words = 0 then 0
    else
      let unique_ratio : ℚ := (total_unique : ℚ) / (total_words : ℚ)
      let medical_complement_score : ℚ := (2/10) *
        ((medicalComplementPairs.filter (fun p =>
          (pyIn p.1 t1 ∧ pyIn p.2 t2) ∨ (pyIn p.2 t1 ∧ pyIn p.1 t2))).length : ℚ)
      let source_factor : ℚ :=
        if f1.metadata.source.hasValueAttr ∧ f2.metadata.source.hasValueAttr then
          let s1 := f1.metadata.source.enumValue
          let s2 := f2.metadata.source.enumValue
          if (pyIn "doctor" s1 ∧ pyIn "patient" s2) ∨
              (pyIn "patient" s1 ∧ pyIn "doctor" s2) then 15/10
          else if (pyIn "doctor" s1 ∧ pyIn "knowledge" s2) ∨
              (pyIn "knowledge" s1 ∧ pyIn "doctor" s2) then 13/10
          else 1
        else 1
      min 1 ((unique_ratio * (7/10) + medical_complement_score) * source_factor)
  else if f1.content.hasData ∧ f2.content.hasData then
    let keys1 := (f1.content.dataOf.map Prod.fst).dedup
    let keys2 := (f2.content.dataOf.map Prod.fst).dedup
    let total_unique_keys := diffCount keys1 keys2 + diffCount keys2 keys1
    let total_keys := unionCount keys1 keys2
    if total_keys = 0 then 0
    else
      let unique_key_ratio : ℚ := (total_unique_keys : ℚ) / (total_keys : ℚ)
      let medical_complement_score : ℚ := (2/10) *
        ((medicalComplementKeys.filter (fun p =>
          (keys1.contains p.1 ∧ keys2.contains p.2) ∨
          (keys1.contains p.2 ∧ keys2.contains p.1))).length : ℚ)
      min 1 (unique_key_ratio * (7/10) + medical_complement_score)
  else 3/10

/-- Unordered input pairs in the nested-loop order of `build_relation_graph`. -/
def buildPairs : List FeedbackModel → List (FeedbackModel × FeedbackModel)
  | [] => []
  | f :: fs => (fs.map (fun g => (f, g))) ++ buildPairs fs

/-- Detection step for one pair: add support, oppose, then complement edges
whose score exceeds the threshold (strict comparison as in the source). -/
def addDetected (threshold : ℚ) (g : RelationGraph)
    (p : FeedbackModel × FeedbackModel) : RelationGraph :=
  let s := detectSupport p.1 p.2
  let g1 := if threshold < s then
      g.add_relation (RelationModel.make p.1.feedback_id p.2.feedback_id
        RelationType.support s []) else g
  let o := detectOppose p.1 p.2
  let g2 := if threshold < o then
      g1.add_relation (RelationModel.make p.1.feedback_id p.2.feedback_id
        RelationType.oppose o []) else g1
  let c := detectComplement p.1 p.2
  if threshold < c then
    g2.add_relation (RelationModel.make p.1.feedback_id p.2.feedback_id
      RelationType.complement c [])
  else g2

/-- Faithful `GraphBasedFusion.build_relation_graph`: a fresh graph gets the
relations already attached to the inputs, then the detected pairwise ones. -/
def buildRelationGraph (threshold : ℚ) (feedbacks : List FeedbackModel) :
    RelationGraph :=
  let g0 := feedbacks.foldl
    (fun g f => f.relations.foldl RelationGraph.add_relation g) RelationGraph.empty
  (buildPairs feedbacks).foldl (addDetected threshold) g0

/-- Node state of `propagate_information`: reliability, importance and the
content feature vector. -/
structure NodeState where
  reliability : ℚ
  importance : ℚ
  content_vector : List ℚ
deriving DecidableEq, Repr

/-- Feature vector of `GraphBasedFusion._extract_content_vector` (indices 0-4
of the 10 slots are populated; the rest stay 0).  Returns the item as well
because reading the reliability caches it. -/
def extractContentVectorG (now : ℚ) (f : FeedbackModel) :
    List ℚ × FeedbackModel :=
  let p := f.get_reliability now
  let f1 := p.2
  let recency : ℚ := max 0 (1 - ((now - f1.metadata.timestamp) / 86400) / 30)
  let srcF : ℚ :=
    match f1.metadata.source with
    | .enum s =>
      if pyIn "doctor" s.value then 9/10
      else if pyIn "patient" s.value then 7/10
      else if pyIn "system" s.value then 8/10
      else if pyIn "knowledge" s.value then 85/100
      else 0
    | .custom _ => 0
  let typF : ℚ :=
    match f1.metadata.feedback_type with
    | .enum t =>
      if pyIn "diagnostic" t.value then 85/100
      else if pyIn "therapeutic" t.value then 9/10
      else if pyIn "prognostic" t.value then 8/10
      else 0
    | .custom _ => 0
  let contF : ℚ :=
    if f1.content.hasText then min 1 ((pyLen f1.content.textOf : ℚ) / 1000)
    else if f1.content.hasData then
      min 1 ((pyLen (reprDict f1.content.dataOf) : ℚ) / 1000)
    else 0
  ([p.1, recency, srcF, typF, contF, 0, 0, 0, 0, 0], f1)

/-- State initialization of `propagate_information` (lines 440-448): for each
item, read (and thereby cache) its reliability, then extract the content
vector; the dict is filled in input order. -/
def initStep (now : ℚ) (acc : List (String × NodeState) × List FeedbackModel)
    (f : FeedbackModel) : List (String × NodeState) × List FeedbackModel :=
  let p := f.get_reliability now
  let q := extractContentVectorG now p.2
  (dictInsert acc.1 q.2.feedback_id
    { reliability := p.1, importance := 1, content_vector := q.1 },
   acc.2 ++ [q.2])

/-- Fold of `initStep` over the input items in order. -/
def initNodeStates (now : ℚ) (feedbacks : List FeedbackModel) :
    List (String × NodeState) × List FeedbackModel :=
  feedbacks.foldl (initStep now) ([], [])

/-- Per-relation update of the propagation loop (lines 461-487), translated
case by case: the neighbor state is read from the snapshot taken at the start
of the round. -/
def applyRelation (states : List (String × NodeState)) (fid : String)
    (st : NodeState) (r : RelationModel) : NodeState :=
  let other_id := if r.source_id = fid then r.target_id else r.source_id
  match dictGet states other_id with
  | none => st
  | some os =>
    match r.relation_type with
    | RelationType.support =>
      { st with
        reliability := min 1 (st.reliability + r.strength * os.reliability * (1/10))
        importance := min 2 (st.importance + r.strength * os.importance * (1/10)) }
    | RelationType.oppose =>
      { st with
        reliability := max 0 (st.reliability - r.strength * os.reliability * (1/10)) }
    | RelationType.complement =>
      { st with importance := min 2 (st.importance + r.strength * (1/20)) }
    | _ => st

/-- One synchronous round: every node folds its incident relations over the
snapshot of the previous round. -/
def propagateRound (g : RelationGraph) (states : List (String × NodeState)) :
    List (String × NodeState) :=
  states.map (fun p =>
    (p.1, (g.get_relations_by_feedback p.1).foldl (applyRelation states p.1) p.2))

/-- The `for _ in range(max_iterations)` loop of `propagate_information`. -/
def propagateLoop (g : RelationGraph) : ℕ → List (String × NodeState) →
    List (String × NodeState)
  | 0, states => states
  | k + 1, states => propagateLoop g k (propagateRound g states)

/-- Faithful `GraphBasedFusion.propagate_information`. -/
def propagate_information (g : RelationGraph) (maxIter : ℕ) (now : ℚ)
    (feedbacks : List FeedbackModel) :
    List (String × NodeState) × List FeedbackModel :=
  let p := initNodeStates now feedbacks
  (propagateLoop g maxIter p.1, p.2)

/-- Key-merge step of the structured branch of `GraphBasedFusion._fuse_content`
(lines 590-602): an existing key is overwritten only when the first *other*
item carrying that key has strictly smaller weight. -/
def graphStructKey (feedbacks : List FeedbackModel) (weights : List (String × ℚ))
    (fid : String) (w : ℚ) (fused : List (String × PyVal)) (kv : String × PyVal) :
    List (String × PyVal) :=
  if (dictGet fused kv.1).isSome then
    match feedbacks.find? (fun other =>
        (other.feedback_id != fid) && other.content.hasData &&
        (dictGet other.content.dataOf kv.1).isSome) with
    | some other =>
      if (dictGet weights other.feedback_id).getD 0 < w then
        dictInsert fused kv.1 kv.2
      else fused
    | none => fused
  else dictInsert fused kv.1 kv.2

/-- Structured branch of `GraphBasedFusion._fuse_content`. -/
def graphFuseStructured (feedbacks : List FeedbackModel)
    (weights : List (String × ℚ)) : List (String × PyVal) :=
  feedbacks.foldl
    (fun fused f =>
      if f.content.hasData then
        let w := (dictGet weights f.feedback_id).getD 0
        if (1/10 : ℚ) < w then
          f.content.dataOf.foldl (graphStructKey feedbacks weights f.feedback_id w) fused
        else fused
      else fused)
    []

/-- Faithful `GraphBasedFusion._fuse_content` (lines 548-604). -/
def graphFuseContent (feedbacks : List FeedbackModel)
    (weights : List (String × ℚ)) : ContentModel :=
  let text_count := (feedbacks.filter (fun f => f.content.hasText)).length
  let structured_count := (feedbacks.filter (fun f => f.content.hasData)).length
  if structured_count ≤ text_count then
    let texts := feedbacks.filterMap (fun f =>
      if f.content.hasText then
        let w := (dictGet weights f.feedback_id).getD 0
        if (1/10 : ℚ) < w then
          some ("[权重: " ++ formatQ2 w ++ "] " ++ f.content.textOf)
        else none
      else none)
    if texts ≠ [] then ContentModel.text (String.intercalate "\n\n" texts) "zh-CN"
    else
      match listArgmaxBy (fun f => (dictGet weights f.feedback_id).getD 0) feedbacks with
      | some best => best.content
      | none => ContentModel.text "" "zh-CN"
  else ContentModel.structured (graphFuseStructured feedbacks weights)

/-- Shared pipeline head of `GraphBasedFusion.fuse`: build the graph and
propagate. -/
def graphNodeStates (threshold : ℚ) (maxIter : ℕ) (now : ℚ)
    (feedbacks : List FeedbackModel) :
    List (String × NodeState) × List FeedbackModel :=
  propagate_information (buildRelationGraph threshold feedbacks) maxIter now feedbacks

/-- Raw (pre-normalization) weights of `GraphBasedFusion.fuse`:
`weight[i] = reliability[i] * importance[i]`. -/
def graphRawWeights (states : List (String × NodeState)) : List (String × ℚ) :=
  states.map (fun p => (p.1, p.2.reliability * p.2.importance))

/-- Normalization step of `GraphBasedFusion.fuse` (lines 627-641): divide by
the total, or assign the uniform weight to every item id when the total is
zero. -/
def graphNormalize (fb1 : List FeedbackModel) (weights0 : List (String × ℚ)) :
    List (String × ℚ) :=
  let total := (weights0.map Prod.snd).sum
  if total = 0 then
    fb1.foldl (fun w f => dictInsert w f.feedback_id (1 / (fb1.length : ℚ))) weights0
  else weights0.map (fun p => (p.1, p.2 / total))

/-- Per-item weights produced by `GraphBasedFusion.fuse` on a non-empty input. -/
def graphFuseWeights (threshold : ℚ) (maxIter : ℕ) (now : ℚ)
    (feedbacks : List FeedbackModel) : List (String × ℚ) :=
  let p := graphNodeStates threshold maxIter now feedbacks
  graphNormalize p.2 (graphRawWeights p.1)

/-- Faithful `GraphBasedFusion.fuse` (lines 606-673).  Returns the fused item
together with the input list as it stands after the call (the lazy
reliability caching is the only thing that can change it). -/
def graphFuse (threshold : ℚ) (maxIter : ℕ) (now : ℚ) (freshId : String)
    (feedbacks : List FeedbackModel) :
    Except PyError (FeedbackModel × List FeedbackModel) :=
  if feedbacks = [] then Except.error (PyError.valueError "No feedbacks to fuse")
  else
    let p := graphNodeStates threshold maxIter now feedbacks
    let states := p.1
    let fb1 := p.2
    let weights := graphNormalize fb1 (graphRawWeights states)
    match dictArgmax weights with
    | none => Except.error (PyError.valueError "max() arg is an empty sequence")
    | some best =>
      match fb1.find? (fun f => f.feedback_id == best.1) with
      | none => Except.error PyError.stopIteration
      | some best_feedback =>
        let fusedRel := (states.map
          (fun q => q.2.reliability * ((dictGet weights q.1).getD 0))).sum
        let metadata : MetadataModel :=
          { source := mkPySource "fusion.graph_based"
            feedback_type := best_feedback.metadata.feedback_type
            timestamp := now
            feedback_id := freshId
            reliability := some fusedRel
            tags := ["fused", "graph_fusion"] ++ best_feedback.metadata.tags
            context_id := none }
        let content := graphFuseContent fb1 weights
        let fused : FeedbackModel :=
          { metadata := metadata
            content := content
            relations := fb1.map (fun f =>
              RelationModel.make freshId f.feedback_id RelationType.refine
                ((dictGet weights f.feedback_id).getD 0)
                [("fusion_weight", (dictGet weights f.feedback_id).getD 0)]) }
        Except.ok (fused, fb1)

/-- Specification-side per-relation update, written from the claim's wording:
SUPPORT adds strength*neighbor.reliability*0.1 to reliability capped at 1.0
and strength*neighbor.importance*0.1 to importance capped at 2.0; OPPOSE
subtracts strength*neighbor.reliability*0.1 from reliability floored at 0.0;
COMPLEMENT adds strength*0.05 to importance capped at 2.0; other types leave
the state alone. -/
def specApply (cur : List (String × NodeState)) (fid : String)
    (st : NodeState) (r : RelationModel) : NodeState :=
  let nbr := if r.source_id = fid then r.target_id else r.source_id
  match dictGet cur nbr with
  | none => st
  | some os =>
    if r.relation_type = RelationType.support then
      { st with
        reliability := min 1 (st.reliability + r.strength * os.reliability * (1/10))
        importance := min 2 (st.importance + r.strength * os.importance * (1/10)) }
    else if r.relation_type = RelationType.oppose then
      { st with
        reliability := max 0 (st.reliability - r.strength * os.reliability * (1/10)) }
    else if r.relation_type = RelationType.complement then
      { st with importance := min 2 (st.importance + r.strength * (1/20)) }
    else st

/-- Specification-side synchronous round: every item's next state is computed
from the snapshot of the current states. -/
def specRound (g : RelationGraph) (states : List (String × NodeState)) :
    List (String × NodeState) :=
  states.map (fun p =>
    (p.1, (g.get_relations_by_feedback p.1).foldl (specApply states p.1) p.2))

/-- Specification-side propagation: exactly `k` iterated synchronous rounds. -/
def propagationSpec (g : RelationGraph) (k : ℕ)
    (init : List (String × NodeState)) : List (String × NodeState) :=
  (specRound g)^[k] init

/-- The source's per-relation update agrees with the claim's description. -/
theorem applyRelation_eq_specApply :
    applyRelation = specApply := by
  funext states fid st r
  unfold applyRelation specApply
  cases h : dictGet states (if r.source_id = fid then r.target_id else r.source_id) with
  | none => simp only [h]
  | some os =>
    simp only [h]
    cases r.relation_type <;> rfl

/-- The source's round agrees with the claim's round. -/
theorem propagateRound_eq_specRound (g : RelationGraph)
    (states : List (String × NodeState)) :
    propagateRound g states = specRound g states := by
  unfold propagateRound specRound
  rw [applyRelation_eq_specApply]

/-- The iterated loop of the source equals the iterated spec round. -/
theorem propagateLoop_eq_iterate (g : RelationGraph) (k : ℕ)
    (states : List (String × NodeState)) :
    propagateLoop g k states = propagationSpec g k states := by
  induction k generalizing states with
  | zero => rfl
  | succ n ih =>
    unfold propagateLoop propagationSpec
    rw [Function.iterate_succ_apply, ← propagateRound_eq_specRound]
    exact ih (propagateRound g states)

/-- With no stored relations, the per-item relation list is empty. -/
theorem get_relations_nil (g : RelationGraph) (h : g.relations = [])
    (fid : String) : g.get_relations_by_feedback fid = [] := by
  unfold RelationGraph.get_relations_by_feedback
  cases hl : g.feedback_relations.lookup fid with
  | none => rfl
  | some ids =>
    simp only [dictGet, h, List.lookup_nil]
    exact List.filterMap_eq_nil_iff.mpr (fun _ _ => rfl)

/-- A round over a graph without relations changes nothing. -/
theorem propagateRound_of_no_relations (g : RelationGraph)
    (h : g.relations = []) (states : List (String × NodeState)) :
    propagateRound g states = states := by
  unfold propagateRound
  have : ∀ p : String × NodeState, p ∈ states →
      (p.1, (g.get_relations_by_feedback p.1).foldl (applyRelation states p.1) p.2)
        = p := by
    intro p _
    rw [get_relations_nil g h p.1]
    rfl
  rw [List.map_congr_left this]
  simp

/-- Iterating rounds over a relation-free graph is the identity. -/
theorem propagateLoop_of_no_relations (g : RelationGraph) (h : g.relations = []) :
    ∀ (k : ℕ) (states : List (String × NodeState)), propagateLoop g k states = states := by
  intro k
  induction k with
  | zero => intro states; rfl
  | succ n ih =>
    intro states
    show propagateLoop g n (propagateRound g states) = states
    rw [propagateRound_of_no_relations g h states]
    exact ih states

/-- C4: propagation runs exactly the configured number of synchronous rounds
of the claim's per-relation update rule: the source loop coincides with the
iterated specification round (states are read from the previous round's
snapshot; SUPPORT, OPPOSE, COMPLEMENT update reliability/importance with the
stated increments and caps), and when the relation graph contains zero
relations every item's reliability and importance are unchanged after any
number of rounds. -/
theorem C4_propagation (g : RelationGraph) (maxIter : ℕ) (now : ℚ)
    (feedbacks : List FeedbackModel) :
    (propagate_information g maxIter now feedbacks).1 =
      propagationSpec g maxIter (initNodeStates now feedbacks).1 ∧
    (g.relations = [] →
      (propagate_information g maxIter now feedbacks).1 =
        (initNodeStates now feedbacks).1) := by
  constructor
  · exact propagateLoop_eq_iterate g maxIter (initNodeStates now feedbacks).1
  · intro h
    exact propagateLoop_of_no_relations g h maxIter (initNodeStates now feedbacks).1

/-- Witness for C4: the no-op law applied to the empty graph, one item and
the default three rounds. -/
theorem C4_propagation_witness :
    (propagate_information RelationGraph.empty 3 0 [scA1]).1 =
      (initNodeStates 0 [scA1]).1 :=
  (C4_propagation RelationGraph.empty 3 0 [scA1]).2 rfl

/-- A successful association-list lookup comes from a member pair. -/
theorem lookup_mem {α : Type} {l : List (String × α)} {k : String} {v : α}
    (h : l.lookup k = some v) : (k, v) ∈ l := by
  induction l with
  | nil => simp at h
  | cons p ps ih =>
    rw [List.lookup_cons] at h
    by_cases hk : k = p.1
    · subst hk
      simp at h
      simp [← h]
    · have : (k == p.1) = false := beq_false_of_ne hk
      rw [this] at h
      exact List.mem_cons_of_mem _ (ih h)

/-- Membership in a dict after an overwrite-or-append assignment. -/
theorem mem_dictInsert {α : Type} {l : List (String × α)} {k0 : String} {v0 : α}
    {p : String × α} (h : p ∈ dictInsert l k0 v0) : p ∈ l ∨ p = (k0, v0) := by
  unfold dictInsert at h
  by_cases hs : (l.lookup k0).isSome
  · rw [if_pos hs] at h
    obtain ⟨q, hq, hfq⟩ := List.mem_map.mp h
    by_cases hqk : q.1 = k0
    · right
      rw [if_pos hqk] at hfq
      exact hfq.symm
    · left
      rw [if_neg hqk] at hfq
      exact hfq ▸ hq
  · rw [if_neg hs] at h
    rcases List.mem_append.mp h with h1 | h1
    · exact Or.inl h1
    · exact Or.inr (List.mem_singleton.mp h1)

/-- Strength bounds hold for every relation stored in a graph. -/
def GoodStrengths (g : RelationGraph) : Prop :=
  ∀ p : String × RelationModel, p ∈ g.relations →
    0 ≤ p.2.strength ∧ p.2.strength ≤ 1

/-- Adding a bounded relation preserves the strength bounds of the store. -/
theorem goodStrengths_add {g : RelationGraph} {r : RelationModel}
    (hg : GoodStrengths g) (hr : 0 ≤ r.strength ∧ r.strength ≤ 1) :
    GoodStrengths (g.add_relation r) := by
  intro p hp
  rcases mem_dictInsert hp with h1 | h1
  · exact hg p h1
  · rw [h1]
    exact hr

/-- Clamped constructor output always satisfies the strength bounds. -/
theorem make_strength_bounds (src tgt : String) (rt : RelationType) (s : ℚ)
    (md : List (String × ℚ)) :
    0 ≤ (RelationModel.make src tgt rt s md).strength ∧
    (RelationModel.make src tgt rt s md).strength ≤ 1 :=
  ⟨le_max_left 0 _, max_le (by norm_num) (min_le_left 1 s)⟩

/-- Folding a list of bounded relations into the graph preserves the bounds. -/
theorem goodStrengths_foldl_rels :
    ∀ (rels : List RelationModel) (g : RelationGraph), GoodStrengths g →
      (∀ r ∈ rels, 0 ≤ r.strength ∧ r.strength ≤ 1) →
      GoodStrengths (rels.foldl RelationGraph.add_relation g)
  | [], _, hg, _ => hg
  | r :: rs, g, hg, hr =>
    goodStrengths_foldl_rels rs _
      (goodStrengths_add hg (hr r (List.mem_cons_self _ _)))
      (fun r' h => hr r' (List.mem_cons_of_mem _ h))

/-- Folding the items' own relations into the graph preserves the bounds,
given the bounds on those relations. -/
theorem goodStrengths_foldl_own :
    ∀ (feedbacks : List FeedbackModel) (g : RelationGraph), GoodStrengths g →
      (∀ f ∈ feedbacks, ∀ r ∈ f.relations, 0 ≤ r.strength ∧ r.strength ≤ 1) →
      GoodStrengths (feedbacks.foldl
        (fun g f => f.relations.foldl RelationGraph.add_relation g) g)
  | [], _, hg, _ => hg
  | f :: fs, g, hg, hrel =>
    goodStrengths_foldl_own fs _
      (goodStrengths_foldl_rels f.relations g hg (hrel f (List.mem_cons_self _ _)))
      (fun f' hf' r hr => hrel f' (List.mem_cons_of_mem _ hf') r hr)

/-- Conditionally adding a bounded relation preserves the bounds. -/
theorem goodStrengths_addIf {g : RelationGraph} (hg : GoodStrengths g)
    (c : Prop) [Decidable c] (r : RelationModel)
    (hr : 0 ≤ r.strength ∧ r.strength ≤ 1) :
    GoodStrengths (if c then g.add_relation r else g) := by
  split
  · exact goodStrengths_add hg hr
  · exact hg

/-- One pairwise detection step preserves the bounds (detected relations are
built through the clamping constructor). -/
theorem goodStrengths_addDetected {g : RelationGraph} (hg : GoodStrengths g)
    (threshold : ℚ) (p : FeedbackModel × FeedbackModel) :
    GoodStrengths (addDetected threshold g p) :=
  goodStrengths_addIf
    (goodStrengths_addIf
      (goodStrengths_addIf hg _ _ (make_strength_bounds _ _ _ _ _)) _ _
        (make_strength_bounds _ _ _ _ _)) _ _
    (make_strength_bounds _ _ _ _ _)

/-- Folding detection steps over any pair list preserves the bounds. -/
theorem goodStrengths_foldl_detect (threshold : ℚ) :
    ∀ (pairs : List (FeedbackModel × FeedbackModel)) (g : RelationGraph),
      GoodStrengths g → GoodStrengths (pairs.foldl (addDetected threshold) g)
  | [], _, hg => hg
  | p :: ps, g, hg =>
    goodStrengths_foldl_detect threshold ps _ (goodStrengths_addDetected hg threshold p)

/-- The built graph stores only relations with strength in the unit interval,
provided the relations already carried by the items do. -/
theorem buildRelationGraph_goodStrengths (threshold : ℚ)
    (feedbacks : List FeedbackModel)
    (hrel : ∀ f ∈ feedbacks, ∀ r ∈ f.relations, 0 ≤ r.strength ∧ r.strength ≤ 1) :
    GoodStrengths (buildRelationGraph threshold feedbacks) := by
  unfold buildRelationGraph
  refine goodStrengths_foldl_detect threshold _ _
    (goodStrengths_foldl_own feedbacks RelationGraph.empty ?_ hrel)
  intro p hp
  simp [RelationGraph.empty] at hp

/-- Every relation the graph hands back for a feedback id satisfies the
stored strength bounds. -/
theorem get_relations_strength {g : RelationGraph} (hg : GoodStrengths g)
    {fid : String} {r : RelationModel}
    (hr : r ∈ g.get_relations_by_feedback fid) :
    0 ≤ r.strength ∧ r.strength ≤ 1 := by
  unfold RelationGraph.get_relations_by_feedback at hr
  cases hl : g.feedback_relations.lookup fid with
  | none => rw [hl] at hr; simp at hr
  | some ids =>
    rw [hl] at hr
    obtain ⟨rid, _, hrid⟩ := List.mem_filterMap.mp hr
    exact hg (rid, r) (lookup_mem hrid)

/-- Reading the reliability returns exactly the value/cached-item pair. -/
theorem get_reliability_pair (now : ℚ) (f : FeedbackModel) :
    f.get_reliability now = (relVal now f, cacheRel now f) := rfl

/-- Caching shape: the lazy read only sets the metadata reliability field. -/
theorem cacheRel_eq (now : ℚ) (f : FeedbackModel) :
    cacheRel now f =
      { f with metadata := { f.metadata with reliability := some (relVal now f) } } := by
  obtain ⟨⟨src, ft, ts, fid, rel, tags, cid⟩, c, rels⟩ := f
  cases rel <;> rfl

/-- An item with a stored reliability is returned unchanged. -/
theorem cacheRel_of_some {now : ℚ} {f : FeedbackModel} {r : ℚ}
    (h : f.metadata.reliability = some r) : cacheRel now f = f := by
  unfold cacheRel FeedbackModel.get_reliability
  rw [h]

/-- The lazy cache is idempotent. -/
theorem cacheRel_idem (now : ℚ) (f : FeedbackModel) :
    cacheRel now (cacheRel now f) = cacheRel now f :=
  cacheRel_of_some (by rw [cacheRel_eq])

/-- Caching keeps the item id. -/
theorem cacheRel_feedback_id (now : ℚ) (f : FeedbackModel) :
    (cacheRel now f).feedback_id = f.feedback_id := by
  rw [cacheRel_eq]; rfl

/-- The cached item's stored reliability is the value the read returned. -/
theorem cacheRel_reliability (now : ℚ) (f : FeedbackModel) :
    (cacheRel now f).metadata.reliability = some (relVal now f) := by
  rw [cacheRel_eq]

/-- The content-vector extraction returns the cached item unchanged. -/
theorem extractContentVectorG_snd (now : ℚ) (f : FeedbackModel) :
    (extractContentVectorG now f).2 = cacheRel now f := rfl

/-- Single init step, rewritten through the cache lemmas. -/
theorem initStep_eq (now : ℚ) (acc : List (String × NodeState) × List FeedbackModel)
    (f : FeedbackModel) :
    initStep now acc f =
      (dictInsert acc.1 f.feedback_id
        { reliability := relVal now f, importance := 1,
          content_vector := (extractContentVectorG now (cacheRel now f)).1 },
       acc.2 ++ [cacheRel now f]) := by
  unfold initStep
  rw [get_reliability_pair]
  dsimp only
  rw [extractContentVectorG_snd, cacheRel_idem, cacheRel_feedback_id]

/-- Node-state dict entry contributed by one input item. -/
def initEntry (now : ℚ) (f : FeedbackModel) : String × NodeState :=
  (f.feedback_id,
   { reliability := relVal now f, importance := 1,
     content_vector := (extractContentVectorG now (cacheRel now f)).1 })

/-- Lookup misses distribute over append. -/
theorem lookup_append_none {α : Type} {l1 l2 : List (String × α)} {k : String}
    (h1 : l1.lookup k = none) (h2 : l2.lookup k = none) :
    (l1 ++ l2).lookup k = none := by
  induction l1 with
  | nil => simpa using h2
  | cons p ps ih =>
    rw [List.cons_append, List.lookup_cons] at *
    cases hk : (k == p.1) with
    | true => rw [hk] at h1; simp at h1
    | false => rw [hk] at h1; exact ih h1

/-- Lookup misses a singleton with a different key. -/
theorem lookup_singleton_none {α : Type} {k k0 : String} {v : α} (h : k ≠ k0) :
    ([(k0, v)] : List (String × α)).lookup k = none := by
  rw [List.lookup_cons, beq_false_of_ne h]
  rfl

/-- Characterization of the init fold: with pairwise-distinct ids not yet in
the accumulator, the dict grows by one appended entry per item and the item
list by the cached items in order. -/
theorem initFold (now : ℚ) :
    ∀ (fs : List FeedbackModel) (acc : List (String × NodeState) × List FeedbackModel),
      (∀ f ∈ fs, acc.1.lookup f.feedback_id = none) →
      (fs.map FeedbackModel.feedback_id).Nodup →
      fs.foldl (initStep now) acc =
        (acc.1 ++ fs.map (initEntry now), acc.2 ++ fs.map (cacheRel now))
  | [], acc, _, _ => by simp
  | f :: fs, acc, hlk, hnd => by
    rw [List.foldl_cons, initStep_eq]
    have hnone : acc.1.lookup f.feedback_id = none := hlk f (List.mem_cons_self _ _)
    have hins : dictInsert acc.1 f.feedback_id
        ({ reliability := relVal now f, importance := 1,
           content_vector := (extractContentVectorG now (cacheRel now f)).1 } : NodeState) =
        acc.1 ++ [initEntry now f] := by
      unfold dictInsert
      rw [hnone]
      rfl
    rw [hins]
    have hndf : f.feedback_id ∉ fs.map FeedbackModel.feedback_id := by
      have := hnd
      simp only [List.map_cons, List.nodup_cons] at this
      exact this.1
    have hlk2 : ∀ g ∈ fs, (acc.1 ++ [initEntry now f]).lookup g.feedback_id = none := by
      intro g hg
      refine lookup_append_none (hlk g (List.mem_cons_of_mem _ hg)) ?_
      refine lookup_singleton_none ?_
      intro hEq
      exact hndf (hEq ▸ List.mem_map_of_mem FeedbackModel.feedback_id hg)
    have hnd2 : (fs.map FeedbackModel.feedback_id).Nodup := by
      have := hnd
      simp only [List.map_cons, List.nodup_cons] at this
      exact this.2
    rw [initFold now fs _ hlk2 hnd2]
    simp

/-- With pairwise-distinct ids, the initial node states are exactly one entry
per item in order, and the returned item list is the cached one. -/
theorem initNodeStates_eq (now : ℚ) (feedbacks : List FeedbackModel)
    (hnd : (feedbacks.map FeedbackModel.feedback_id).Nodup) :
    initNodeStates now feedbacks =
      (feedbacks.map (initEntry now), feedbacks.map (cacheRel now)) := by
  unfold initNodeStates
  simpa using initFold now feedbacks ([], []) (by simp) hnd

/-- The item-list component of the init fold, with no id assumptions. -/
theorem initFold_snd (now : ℚ) :
    ∀ (fs : List FeedbackModel) (acc : List (String × NodeState) × List FeedbackModel),
      (fs.foldl (initStep now) acc).2 = acc.2 ++ fs.map (cacheRel now)
  | [], acc => by simp
  | f :: fs, acc => by
    rw [List.foldl_cons, initStep_eq, initFold_snd now fs _]
    simp

/-- Propagation returns the cached input items, with no id assumptions. -/
theorem propagate_information_snd (g : RelationGraph) (maxIter : ℕ) (now : ℚ)
    (feedbacks : List FeedbackModel) :
    (propagate_information g maxIter now feedbacks).2 =
      feedbacks.map (cacheRel now) := by
  unfold propagate_information initNodeStates
  simpa using initFold_snd now feedbacks ([], [])

/-- Reliability in [0,1] and importance in [1,2] for every node state. -/
def GoodState (st : NodeState) : Prop :=
  0 ≤ st.reliability ∧ st.reliability ≤ 1 ∧ 1 ≤ st.importance ∧ st.importance ≤ 2

/-- All entries of a state dict are in bounds. -/
def GoodStates (states : List (String × NodeState)) : Prop :=
  ∀ p ∈ states, GoodState p.2

/-- A single per-relation update keeps the state in bounds. -/
theorem applyRelation_goodState {states : List (String × NodeState)} {fid : String}
    {st : NodeState} {r : RelationModel} (hstates : GoodStates states)
    (hst : GoodState st) (hr : 0 ≤ r.strength ∧ r.strength ≤ 1) :
    GoodState (applyRelation states fid st r) := by
  unfold applyRelation
  cases h : dictGet states (if r.source_id = fid then r.target_id else r.source_id) with
  | none => simp only [h]; exact hst
  | some os =>
    simp only [h]
    have hos : GoodState os := hstates (_, os) (lookup_mem h)
    have hosr : (0:ℚ) ≤ os.reliability := hos.1
    have hosi : (0:ℚ) ≤ os.importance := le_trans zero_le_one hos.2.2.1
    cases r.relation_type with
    | support =>
      refine ⟨?_, ?_, ?_, ?_⟩
      · exact le_min (by norm_num)
          (add_nonneg hst.1 (mul_nonneg (mul_nonneg hr.1 hosr) (by norm_num)))
      · exact min_le_left 1 _
      · exact le_min (by norm_num)
          (le_add_of_le_of_nonneg hst.2.2.1
            (mul_nonneg (mul_nonneg hr.1 hosi) (by norm_num)))
      · exact min_le_left 2 _
    | oppose =>
      refine ⟨le_max_left 0 _, ?_, hst.2.2.1, hst.2.2.2⟩
      refine max_le (by norm_num) ?_
      calc st.reliability - r.strength * os.reliability * (1/10)
          ≤ st.reliability := by
            have : (0:ℚ) ≤ r.strength * os.reliability * (1/10) :=
              mul_nonneg (mul_nonneg hr.1 hosr) (by norm_num)
            linarith
        _ ≤ 1 := hst.2.1
    | complement =>
      refine ⟨hst.1, hst.2.1, ?_, min_le_left 2 _⟩
      exact le_min (by norm_num)
        (le_add_of_le_of_nonneg hst.2.2.1 (mul_nonneg hr.1 (by norm_num)))
    | refine => exact hst
    | temporal => exact hst
    | causal => exact hst

/-- Folding bounded relations over a bounded state stays in bounds. -/
theorem foldl_applyRelation_goodState {states : List (String × NodeState)}
    {fid : String} (hstates : GoodStates states) :
    ∀ (rels : List RelationModel) (st : NodeState), GoodState st →
      (∀ r ∈ rels, 0 ≤ r.strength ∧ r.strength ≤ 1) →
      GoodState (rels.foldl (applyRelation states fid) st)
  | [], _, hst, _ => hst
  | r :: rs, st, hst, hr =>
    foldl_applyRelation_goodState hstates rs _
      (applyRelation_goodState hstates hst (hr r (List.mem_cons_self _ _)))
      (fun r' h => hr r' (List.mem_cons_of_mem _ h))

/-- A synchronous round keeps every state in bounds. -/
theorem propagateRound_goodStates {g : RelationGraph} (hg : GoodStrengths g)
    {states : List (String × NodeState)} (hs : GoodStates states) :
    GoodStates (propagateRound g states) := by
  intro p hp
  obtain ⟨q, hq, hpq⟩ := List.mem_map.mp hp
  rw [← hpq]
  exact foldl_applyRelation_goodState hs _ q.2 (hs q hq)
    (fun r hr => get_relations_strength hg hr)

/-- All rounds keep every state in bounds. -/
theorem propagateLoop_goodStates {g : RelationGraph} (hg : GoodStrengths g) :
    ∀ (k : ℕ) (states : List (String × NodeState)), GoodStates states →
      GoodStates (propagateLoop g k states)
  | 0, _, hs => hs
  | k + 1, states, hs =>
    propagateLoop_goodStates hg k _ (propagateRound_goodStates hg hs)

/-- A round does not change the key column of the state dict. -/
theorem propagateRound_keys (g : RelationGraph)
    (states : List (String × NodeState)) :
    (propagateRound g states).map Prod.fst = states.map Prod.fst := by
  unfold propagateRound
  rw [List.map_map]
  rfl

/-- Iterated rounds do not change the key column. -/
theorem propagateLoop_keys (g : RelationGraph) :
    ∀ (k : ℕ) (states : List (String × NodeState)),
      (propagateLoop g k states).map Prod.fst = states.map Prod.fst
  | 0, _ => rfl
  | k + 1, states => by
    show (propagateLoop g k (propagateRound g states)).map Prod.fst = _
    rw [propagateLoop_keys g k, propagateRound_keys]

/-- Sums of divided lists. -/
theorem sum_map_div (l : List ℚ) (t : ℚ) :
    (l.map (fun x => x / t)).sum = l.sum / t := by
  induction l with
  | nil => simp
  | cons x xs ih => simp [ih, add_div]

/-- Containment of a key in the key column implies a successful lookup. -/
theorem lookup_isSome_of_contains {α : Type} {w : List (String × α)} {k : String}
    (h : (w.map Prod.fst).contains k = true) : (w.lookup k).isSome := by
  induction w with
  | nil => simp at h
  | cons p ps ih =>
    rw [List.lookup_cons]
    simp only [List.map_cons, List.contains_cons] at h
    cases hk : (k == p.1) with
    | true => rfl
    | false =>
      rw [Bool.or_eq_true] at h
      rcases h with h | h
      · rw [hk] at h
        exact absurd h (by simp)
      · exact ih h

/-- Overwriting a present key maps the entries in place. -/
theorem dictInsert_of_contains {α : Type} {w : List (String × α)} {k : String}
    (v : α) (h : (w.map Prod.fst).contains k = true) :
    dictInsert w k v = w.map (fun p => if p.1 = k then (k, v) else p) := by
  unfold dictInsert
  rw [if_pos (lookup_isSome_of_contains h)]

/-- The in-place overwrite keeps the key column. -/
theorem overwrite_keys {α : Type} (w : List (String × α)) (k : String) (v : α) :
    (w.map (fun p => if p.1 = k then (k, v) else p)).map Prod.fst =
      w.map Prod.fst := by
  rw [List.map_map]
  refine List.map_congr_left (fun p _ => ?_)
  by_cases hp : p.1 = k
  · simp [hp]
  · simp [hp]

/-- Assigning the constant `c` to every listed id overwrites exactly the
entries whose key occurs among those ids. -/
theorem foldl_dictInsert_const (c : ℚ) :
    ∀ (fs : List FeedbackModel) (w : List (String × ℚ)),
      (∀ f ∈ fs, (w.map Prod.fst).contains f.feedback_id = true) →
      fs.foldl (fun w f => dictInsert w f.feedback_id c) w =
        w.map (fun p =>
          if (fs.map FeedbackModel.feedback_id).contains p.1 then (p.1, c) else p)
  | [], w, _ => by simp
  | f :: fs, w, hk => by
    rw [List.foldl_cons,
      dictInsert_of_contains c (hk f (List.mem_cons_self _ _))]
    have hkeys := overwrite_keys w f.feedback_id c
    rw [foldl_dictInsert_const c fs _ (fun f' hf' => by
      rw [hkeys]; exact hk f' (List.mem_cons_of_mem _ hf'))]
    rw [List.map_map]
    refine List.map_congr_left (fun p _ => ?_)
    by_cases hp : p.1 = f.feedback_id
    · simp only [Function.comp_apply, if_pos hp]
      by_cases h2 : (fs.map FeedbackModel.feedback_id).contains f.feedback_id = true
      · simp [h2, hp]
      · simp [h2, hp]
    · simp only [Function.comp_apply, if_neg hp]
      have : ((f :: fs).map FeedbackModel.feedback_id).contains p.1 =
          (fs.map FeedbackModel.feedback_id).contains p.1 := by
        simp only [List.map_cons, List.contains_cons]
        rw [beq_false_of_ne hp]
        simp
      rw [this]

/-- Ids of the cached item list are the original ids. -/
theorem cached_ids (now : ℚ) (feedbacks : List FeedbackModel) :
    (feedbacks.map (cacheRel now)).map FeedbackModel.feedback_id =
      feedbacks.map FeedbackModel.feedback_id := by
  rw [List.map_map]
  exact List.map_congr_left (fun f _ => cacheRel_feedback_id now f)

/-- Simplex property of the graph strategy's weights: with well-formed inputs
(non-empty, distinct ids, relation strengths and reliabilities in [0,1]) the
normalized weights are nonnegative and sum to exactly 1, with the uniform
fallback covering a zero total. -/
theorem graphWeights_simplex (threshold : ℚ) (maxIter : ℕ) (now : ℚ)
    (feedbacks : List FeedbackModel)
    (hne : feedbacks ≠ [])
    (hnd : (feedbacks.map FeedbackModel.feedback_id).Nodup)
    (hrel : ∀ f ∈ feedbacks, ∀ r ∈ f.relations, 0 ≤ r.strength ∧ r.strength ≤ 1)
    (hrv : ∀ f ∈ feedbacks, 0 ≤ relVal now f ∧ relVal now f ≤ 1) :
    (∀ p ∈ graphFuseWeights threshold maxIter now feedbacks, 0 ≤ p.2) ∧
    ((graphFuseWeights threshold maxIter now feedbacks).map Prod.snd).sum = 1 := by
  have hg : GoodStrengths (buildRelationGraph threshold feedbacks) :=
    buildRelationGraph_goodStrengths threshold feedbacks hrel
  have hinit : GoodStates (feedbacks.map (initEntry now)) := by
    intro p hp
    obtain ⟨f, hf, hpf⟩ := List.mem_map.mp hp
    rw [← hpf]
    exact ⟨(hrv f hf).1, (hrv f hf).2, le_refl 1, (by norm_num : (1:ℚ) ≤ 2)⟩
  unfold graphFuseWeights graphNodeStates propagate_information
  rw [initNodeStates_eq now feedbacks hnd]
  dsimp only
  have hgood : GoodStates (propagateLoop (buildRelationGraph threshold feedbacks)
      maxIter (feedbacks.map (initEntry now))) :=
    propagateLoop_goodStates hg maxIter _ hinit
  set states := propagateLoop (buildRelationGraph threshold feedbacks) maxIter
    (feedbacks.map (initEntry now)) with hstates_def
  have hkeys : states.map Prod.fst = feedbacks.map FeedbackModel.feedback_id := by
    rw [hstates_def, propagateLoop_keys, List.map_map]
    rfl
  have hw0 : ∀ p ∈ graphRawWeights states, 0 ≤ p.2 := by
    intro p hp
    obtain ⟨q, hq, hpq⟩ := List.mem_map.mp hp
    rw [← hpq]
    exact mul_nonneg (hgood q hq).1 (le_trans zero_le_one (hgood q hq).2.2.1)
  have hw0keys : (graphRawWeights states).map Prod.fst =
      feedbacks.map FeedbackModel.feedback_id := by
    unfold graphRawWeights
    rw [List.map_map]
    exact hkeys
  have hw0len : (graphRawWeights states).length = feedbacks.length := by
    have := congrArg List.length hw0keys
    simpa using this
  have htotnn : 0 ≤ ((graphRawWeights states).map Prod.snd).sum := by
    refine List.sum_nonneg (fun x hx => ?_)
    obtain ⟨p, hp, hpx⟩ := List.mem_map.mp hx
    exact hpx ▸ hw0 p hp
  unfold graphNormalize
  by_cases htot : ((graphRawWeights states).map Prod.snd).sum = 0
  · rw [if_pos htot]
    have hlen : ((feedbacks.map (cacheRel now)).length : ℚ) = (feedbacks.length : ℚ) := by
      rw [List.length_map]
    have hcont : ∀ f ∈ feedbacks.map (cacheRel now),
        ((graphRawWeights states).map Prod.fst).contains f.feedback_id = true := by
      intro f hf
      obtain ⟨f0, hf0, hff⟩ := List.mem_map.mp hf
      rw [hw0keys, ← hff, cacheRel_feedback_id]
      exact List.elem_eq_true_of_mem (List.mem_map_of_mem FeedbackModel.feedback_id hf0)
    rw [foldl_dictInsert_const _ _ _ hcont]
    have hall : ∀ p ∈ graphRawWeights states,
        ((feedbacks.map (cacheRel now)).map FeedbackModel.feedback_id).contains p.1
          = true := by
      intro p hp
      rw [cached_ids, ← hw0keys]
      exact List.elem_eq_true_of_mem (List.mem_map_of_mem Prod.fst hp)
    have hmap : (graphRawWeights states).map (fun p =>
        if ((feedbacks.map (cacheRel now)).map FeedbackModel.feedback_id).contains p.1
        then (p.1, 1 / ((feedbacks.map (cacheRel now)).length : ℚ)) else p) =
        (graphRawWeights states).map (fun p =>
          (p.1, 1 / ((feedbacks.map (cacheRel now)).length : ℚ))) := by
      refine List.map_congr_left (fun p hp => ?_)
      rw [if_pos (hall p hp)]
    rw [hmap]
    have hnlen : (feedbacks.length : ℚ) ≠ 0 :=
      Nat.cast_ne_zero.mpr (fun h => hne (List.length_eq_zero.mp h))
    constructor
    · intro p hp
      obtain ⟨q, hq, hpq⟩ := List.mem_map.mp hp
      rw [← hpq]
      have : (0:ℚ) ≤ (feedbacks.length : ℚ) := Nat.cast_nonneg _
      positivity
    · rw [List.map_map]
      have : (Prod.snd ∘ fun p : String × ℚ =>
          (p.1, 1 / ((feedbacks.map (cacheRel now)).length : ℚ))) =
          (fun _ => 1 / ((feedbacks.map (cacheRel now)).length : ℚ)) := rfl
      rw [this, List.map_const', List.sum_replicate, nsmul_eq_mul, hw0len, hlen]
      field_simp
  · rw [if_neg htot]
    constructor
    · intro p hp
      obtain ⟨q, hq, hpq⟩ := List.mem_map.mp hp
      rw [← hpq]
      exact div_nonneg (hw0 q hq) htotnn
    · rw [List.map_map]
      have : ((graphRawWeights states).map (Prod.snd ∘ fun p : String × ℚ =>
          (p.1, p.2 / ((graphRawWeights states).map Prod.snd).sum))) =
          ((graphRawWeights states).map Prod.snd).map
            (fun x => x / ((graphRawWeights states).map Prod.snd).sum) := by
        rw [List.map_map]
        rfl
      rw [this, sum_map_div]
      exact div_self htot

/-- Enum value of the feedback type under the `hasattr` guard. -/
def PyFType.enumValue : PyFType → String
  | .enum t => t.value
  | .custom t => t

/-- Placeholder item for positional indexing that cannot miss in Python. -/
def dummyItem : FeedbackModel :=
  { metadata := { source := .custom "", feedback_type := .custom "", timestamp := 0,
                  feedback_id := "", reliability := some 0, tags := [],
                  context_id := none },
    content := .text "" "zh-CN",
    relations := [] }

/-- Medical term list of `_extract_features` (feature 6, text branch). -/
def medicalTermsF6 : List String :=
  ["诊断", "治疗", "症状", "病因", "预后", "用药", "剂量", "副作用",
   "禁忌症", "适应症", "检查", "手术", "康复", "随访", "并发症",
   "diagnosis", "treatment", "symptom", "etiology", "prognosis",
   "medication", "dosage", "side effect", "contraindication",
   "indication", "examination", "surgery", "rehabilitation"]

/-- Medical key list of `_extract_features` (feature 6, structured branch). -/
def medicalKeysF6 : List String :=
  ["诊断", "治疗", "症状", "病因", "预后", "用药", "剂量", "副作用",
   "diagnosis", "treatment", "symptom", "etiology", "prognosis",
   "medication", "dosage", "side_effect"]

/-- Urgency tags of `_extract_features` (feature 8; exact membership). -/
def urgencyTags : List String :=
  ["urgent", "emergency", "critical", "important", "紧急", "重要", "关键"]

/-- Advanced terminology list of `_extract_medical_domain_feature`.  The
entry `临床 Trial` is kept verbatim: the text is lowercased before matching,
so its capital T can never match — as in the source. -/
def advancedMedicalTerms : List String :=
  ["病理生理", "分子机制", "信号通路", "基因表达", "免疫应答",
   "药物动力学", "药效学", "临床 Trial", "循证医学", "系统综述",
   "pathophysiology", "molecular mechanism", "signaling pathway",
   "gene expression", "immune response", "pharmacokinetics",
   "pharmacodynamics", "clinical trial", "evidence-based",
   "systematic review", "meta-analysis"]

/-- Faithful `AttentionBasedFusion._extract_medical_domain_feature`. -/
def extractMedicalDomainFeature (f : FeedbackModel) : ℚ :=
  let s1 : ℚ :=
    match f.metadata.source with
    | .enum s =>
      let sv := pyLower s.value
      (if pyIn "doctor" sv ∨ pyIn "physician" sv then (2/10 : ℚ) else 0) +
      (if pyIn "specialist" sv then (1/10 : ℚ) else 0) +
      (if pyIn "professor" sv ∨ pyIn "expert" sv then (1/10 : ℚ) else 0)
    | .custom _ => 0
  let s2 : ℚ :=
    if f.content.hasText then
      min (2/10)
        (((advancedMedicalTerms.filter
          (fun t => pyIn t (pyLower f.content.textOf))).length : ℚ) * (5/100))
    else 0
  min 1 (1/2 + s1 + s2)

/-- Faithful `AttentionBasedFusion._extract_features` (10 features; the
reliability read caches, so the updated item is returned too). -/
def extractFeaturesA (now : ℚ) (f : FeedbackModel) : List ℚ × FeedbackModel :=
  let p := f.get_reliability now
  let f1 := p.2
  let recency : ℚ := max 0 (1 - ((now - f1.metadata.timestamp) / 86400) / 30)
  let srcF : ℚ :=
    match f1.metadata.source with
    | .enum s =>
      if pyIn "doctor" s.value then 9/10
      else if pyIn "patient" s.value then 7/10
      else if pyIn "system" s.value then 8/10
      else if pyIn "knowledge" s.value then 85/100
      else if pyIn "specialist" s.value then 95/100
      else if pyIn "literature" s.value then 88/100
      else 0
    | .custom _ => 0
  let typF : ℚ :=
    match f1.metadata.feedback_type with
    | .enum t =>
      if pyIn "diagnostic" t.value then 85/100
      else if pyIn "therapeutic" t.value then 9/10
      else if pyIn "prognostic" t.value then 8/10
      else if pyIn "preventive" t.value then 75/100
      else if pyIn "monitoring" t.value then 82/100
      else if pyIn "emergency" t.value then 95/100
      else 0
    | .custom _ => 0
  let relF : ℚ := min 1 ((f1.relations.length : ℚ) * (2/10))
  let lenF : ℚ :=
    if f1.content.hasText then min 1 ((pyLen f1.content.textOf : ℚ) / 1000)
    else if f1.content.hasData then
      min 1 ((pyLen (reprDict f1.content.dataOf) : ℚ) / 1000)
    else 0
  let densF : ℚ :=
    if f1.content.hasText then
      min 1 (((medicalTermsF6.filter
        (fun t => pyIn t (pyLower f1.content.textOf))).length : ℚ) / 10)
    else if f1.content.hasData then
      -- the source's comprehension condition does not depend on the iterated
      -- key, so the count is all-or-nothing over the whole key list
      let cond := (f1.content.dataOf.map Prod.fst).any (fun k =>
        medicalKeysF6.any (fun mk => pyIn mk k))
      min 1 (((if cond then medicalKeysF6.length else 0) : ℚ) / 5)
    else 0
  let tagF : ℚ :=
    if f1.metadata.tags ≠ [] then min 1 ((f1.metadata.tags.length : ℚ) / 10) else 0
  let urgF : ℚ :=
    if f1.metadata.tags ≠ [] then
      if f1.metadata.tags.any (fun t => urgencyTags.contains t) then 1 else 0
    else 0
  ([p.1, recency, srcF, typF, relF, lenF, densF, tagF, urgF,
    extractMedicalDomainFeature f1], f1)

/-- Feature extraction over the whole input list, threading the cache. -/
def extractFeaturesList (now : ℚ) (feedbacks : List FeedbackModel) :
    List (List ℚ) × List FeedbackModel :=
  feedbacks.foldl
    (fun acc f =>
      let q := extractFeaturesA now f
      (acc.1 ++ [q.1], acc.2 ++ [q.2]))
    ([], [])

/-- Randomness and transcendental primitives of `AttentionBasedFusion`,
injected: the projection matrices are drawn by `np.random.randn` at
construction time, `dropMask` models the binomial dropout mask draws,
`pexp` models `np.exp` and `sqrtf` models `np.sqrt` (theorems that need it
assume `pexp` is positive, as the real exponential is). -/
structure AttentionParams where
  attention_heads : ℕ
  attention_dropout : ℚ
  query_weights : ℕ → ℕ → ℕ → ℚ
  key_weights : ℕ → ℕ → ℕ → ℚ
  value_weights : ℕ → ℕ → ℕ → ℚ
  output_weights : ℕ → ℕ → ℚ
  dropMask : ℕ → ℕ → ℕ → ℚ
  pexp : ℚ → ℚ
  sqrtf : ℕ → ℚ

/-- Feature-matrix cell (row i, column k), 0 out of range as in NumPy zeros. -/
def matCell (features : List (List ℚ)) (i k : ℕ) : ℚ :=
  ((features.getD i []).getD k 0)

/-- Projection of a feature row through one head's matrix. -/
def projCell (features : List (List ℚ)) (w : ℕ → ℕ → ℚ) (i j : ℕ) : ℚ :=
  ((List.range 10).map (fun k => matCell features i k * w k j)).sum

/-- Scaled dot-product attention score of head `h` between rows `i` and `j`. -/
def attnScore (p : AttentionParams) (features : List (List ℚ)) (h i j : ℕ) : ℚ :=
  let head_dim := 10 / p.attention_heads
  (((List.range head_dim).map (fun k =>
    projCell features (p.query_weights h) i k *
    projCell features (p.key_weights h) j k)).sum) / p.sqrtf head_dim

/-- Maximum of a score row (NumPy max with keepdims). -/
def rowMax (l : List ℚ) : ℚ := l.foldl max (l.headD 0)

/-- Softmax attention weight of head `h` from row `i` to column `j`
(max-subtraction for numerical stability as in the source). -/
def softmaxCell (p : AttentionParams) (features : List (List ℚ)) (n h i j : ℕ) : ℚ :=
  let row := (List.range n).map (fun c => attnScore p features h i c)
  let m := rowMax row
  let ex := row.map (fun s => p.pexp (s - m))
  (ex.getD j 0) / ex.sum

/-- Dropout applied to an attention cell (inverted scaling, as the source). -/
def droppedCell (p : AttentionParams) (features : List (List ℚ)) (n h i j : ℕ) : ℚ :=
  if p.attention_dropout ≤ 0 then softmaxCell p features n h i j
  else softmaxCell p features n h i j * p.dropMask h i j / (1 - p.attention_dropout)

/-- Weighted sum of the value vectors for head `h`. -/
def headOutput (p : AttentionParams) (features : List (List ℚ)) (n h i k : ℕ) : ℚ :=
  ((List.range n).map (fun j =>
    droppedCell p features n h i j * projCell features (p.value_weights h) j k)).sum

/-- Concatenated multi-head output before the output projection: column `c`
belongs to head `c / head_dim` when that head exists, otherwise stays 0. -/
def concatCell (p : AttentionParams) (features : List (List ℚ)) (n i c : ℕ) : ℚ :=
  let head_dim := 10 / p.attention_heads
  if 0 < head_dim ∧ c / head_dim < p.attention_heads then
    headOutput p features n (c / head_dim) i (c % head_dim)
  else 0

/-- Final attention output after the output projection. -/
def attnOutput (p : AttentionParams) (features : List (List ℚ)) (n i j : ℕ) : ℚ :=
  ((List.range 10).map (fun k =>
    concatCell p features n i k * p.output_weights k j)).sum

/-- Weight pipeline of the effective (second) `AttentionBasedFusion.fuse`
definition: normalize the absolute values of the attention output's leading
column.  There is no zero-denominator guard in the source; `none` marks the
NaN vector NumPy produces when the column is all zeros. -/
def attnWeights (p : AttentionParams) (now : ℚ)
    (feedbacks : List FeedbackModel) : Option (List ℚ) × List FeedbackModel :=
  let q := extractFeaturesList now feedbacks
  let n := feedbacks.length
  let raw := (List.range n).map (fun i => |attnOutput p q.1 n i 0|)
  (if raw.sum = 0 then none else some (raw.map (fun x => x / raw.sum)), q.2)

/-- Source substrings of the medical-domain detection of the first `fuse`. -/
def sourceMedicalTerms : List String :=
  ["doctor", "patient", "hospital", "clinic", "medical"]

/-- Type substrings of the medical-domain detection. -/
def typeMedicalTerms : List String :=
  ["diagnostic", "therapeutic", "clinical"]

/-- Medical-domain detection of the first `fuse` definition (lines 283-295):
some item's source or feedback-kind string matches the keyword lists. -/
def isMedicalDomain (feedbacks : List FeedbackModel) : Bool :=
  feedbacks.any (fun f =>
    (f.metadata.source.hasValueAttr &&
      sourceMedicalTerms.any (fun t => pyIn t (pyLower f.metadata.source.enumValue))) ||
    (f.metadata.feedback_type.hasValueAttr &&
      typeMedicalTerms.any (fun t => pyIn t (pyLower f.metadata.feedback_type.enumValue))))

/-- Critical terms of `compute_medical_attention_weights`. -/
def medicalCriticalTerms : List String :=
  ["危重", "紧急", "立即", "生命危险", "不良反应", "严重并发症",
   "critical", "emergency", "immediate", "life-threatening",
   "adverse reaction", "severe complication"]

/-- Multiplicative boost of one item in
`AttentionBasedFusion.compute_medical_attention_weights` (lines 183-255). -/
def medicalWeightFor (f : FeedbackModel) : ℚ :=
  let w1 : ℚ :=
    match f.metadata.source with
    | .enum s =>
      let sv := pyLower s.value
      (if pyIn "doctor" sv then (15/10 : ℚ) else 1) *
      (if pyIn "specialist" sv then (12/10 : ℚ) else 1) *
      (if pyIn "patient" sv then (8/10 : ℚ) else 1)
    | .custom _ => 1
  let w2 : ℚ :=
    match f.metadata.feedback_type with
    | .enum t =>
      let tv := pyLower t.value
      (if pyIn "emergency" tv then (2 : ℚ) else 1) *
      (if pyIn "therapeutic" tv then (13/10 : ℚ) else 1) *
      (if pyIn "diagnostic" tv then (12/10 : ℚ) else 1)
    | .custom _ => 1
  let w3 : ℚ :=
    if f.content.hasText ∧
        medicalCriticalTerms.any (fun t => pyIn t (pyLower f.content.textOf)) then
      15/10
    else 1
  w1 * w2 * w3

/-- Faithful `compute_medical_attention_weights`: boosts then normalization
with the uniform fallback for a nonpositive total. -/
def computeMedicalAttentionWeights (feedbacks : List FeedbackModel) : List ℚ :=
  let ws := feedbacks.map medicalWeightFor
  if 0 < ws.sum then ws.map (fun w => w / ws.sum)
  else List.replicate feedbacks.length (1 / (feedbacks.length : ℚ))

/-- Key-merge step of the structured branch of the attention `_fuse_content`
(lines 462-477): overwrite only when the first earlier-indexed item carrying
the key has strictly smaller weight. -/
def attnStructKey (feedbacks : List FeedbackModel) (weights : List ℚ) (i : ℕ)
    (fused : List (String × PyVal)) (kv : String × PyVal) : List (String × PyVal) :=
  if (dictGet fused kv.1).isSome then
    match feedbacks.enum.find? (fun pr =>
        decide (pr.1 < i) && pr.2.content.hasData &&
        (dictGet pr.2.content.dataOf kv.1).isSome) with
    | some pr =>
      if weights.getD pr.1 0 < weights.getD i 0 then dictInsert fused kv.1 kv.2
      else fused
    | none => fused
  else dictInsert fused kv.1 kv.2

/-- Structured branch of the attention `_fuse_content`. -/
def attnFuseStructured (feedbacks : List FeedbackModel) (weights : List ℚ) :
    List (String × PyVal) :=
  feedbacks.enum.foldl
    (fun fused pr =>
      if pr.2.content.hasData then
        if (1/10 : ℚ) < weights.getD pr.1 0 then
          pr.2.content.dataOf.foldl (attnStructKey feedbacks weights pr.1) fused
        else fused
      else fused)
    []

/-- Faithful attention `_fuse_content` (lines 428-479; weights positional). -/
def attnFuseContent (feedbacks : List FeedbackModel) (weights : List ℚ) :
    ContentModel :=
  let text_count := (feedbacks.filter (fun f => f.content.hasText)).length
  let structured_count := (feedbacks.filter (fun f => f.content.hasData)).length
  if structured_count ≤ text_count then
    let texts := feedbacks.enum.filterMap (fun pr =>
      if pr.2.content.hasText then
        if (1/10 : ℚ) < weights.getD pr.1 0 then
          some ("[权重: " ++ formatQ2 (weights.getD pr.1 0) ++ "] " ++
            pr.2.content.textOf)
        else none
      else none)
    if texts ≠ [] then ContentModel.text (String.intercalate "\n\n" texts) "zh-CN"
    else (feedbacks.getD (npArgmax weights) dummyItem).content
  else ContentModel.structured (attnFuseStructured feedbacks weights)

/-- Faithful effective `AttentionBasedFusion.fuse` (the second definition,
lines 481-537, which shadows the first): features, multi-head attention,
normalized |leading column| weights, fused metadata/content, REFINE
relations carrying the attention weights. -/
def attentionFuse (p : AttentionParams) (now : ℚ) (freshId : String)
    (feedbacks : List FeedbackModel) :
    Except PyError (FeedbackModel × List FeedbackModel) :=
  if feedbacks = [] then Except.error (PyError.valueError "No feedbacks to fuse")
  else
    let q := attnWeights p now feedbacks
    match q.1 with
    | none => Except.error PyError.nanWeights
    | some weights =>
      let fb1 := q.2
      let best_feedback := fb1.getD (npArgmax weights) dummyItem
      let metadata : MetadataModel :=
        { source := mkPySource "fusion.attention_based"
          feedback_type := best_feedback.metadata.feedback_type
          timestamp := now
          feedback_id := freshId
          reliability := some (((fb1.zip weights).map
            (fun pr => relVal now pr.1 * pr.2)).sum)
          tags := ["fused", "attention_fusion"] ++ best_feedback.metadata.tags
          context_id := none }
      let content := attnFuseContent fb1 weights
      let fused : FeedbackModel :=
        { metadata := metadata
          content := content
          relations := (fb1.zip weights).map (fun pr =>
            RelationModel.make freshId pr.1.feedback_id RelationType.refine pr.2
              [("attention_weight", pr.2)]) }
      Except.ok (fused, fb1)

/-- Recency extractor of `RLBasedFusion` (identical formula to the others). -/
def extractRecencyR (now : ℚ) (f : FeedbackModel) : ℚ :=
  max 0 (1 - ((now - f.metadata.timestamp) / 86400) / 30)

/-- Source-type extractor of `RLBasedFusion._extract_source_type` (falls
through to the 0.5 default when no keyword matches or the source is custom). -/
def extractSourceTypeR (f : FeedbackModel) : ℚ :=
  match f.metadata.source with
  | .enum s =>
    if pyIn "doctor" s.value then 9/10
    else if pyIn "patient" s.value then 7/10
    else if pyIn "system" s.value then 8/10
    else if pyIn "knowledge" s.value then 85/100
    else 1/2
  | .custom _ => 1/2

/-- Feedback-type extractor of `RLBasedFusion._extract_feedback_type`. -/
def extractFeedbackTypeR (f : FeedbackModel) : ℚ :=
  match f.metadata.feedback_type with
  | .enum t =>
    if pyIn "diagnostic" t.value then 85/100
    else if pyIn "therapeutic" t.value then 9/10
    else if pyIn "prognostic" t.value then 8/10
    else 1/2
  | .custom _ => 1/2

/-- Occurrence counting in dict insertion order (Python count dict). -/
def countValues (vals : List String) : List (String × ℕ) :=
  vals.foldl
    (fun d v =>
      match d.lookup v with
      | some c => dictInsert d v (c + 1)
      | none => d ++ [(v, 1)])
    []

/-- Insertion into a key-sorted association list. -/
def insertSorted (p : String × ℕ) : List (String × ℕ) → List (String × ℕ)
  | [] => [p]
  | q :: qs => if p.1 < q.1 then p :: q :: qs else q :: insertSorted p qs

/-- Python `sorted(d.items())` (keys are unique, so key order decides). -/
def sortByKey (l : List (String × ℕ)) : List (String × ℕ) :=
  l.foldr insertSorted []

/-- Formatting of the top-3 sorted count entries (`k:v` joined by commas). -/
def stateFmt (l : List (String × ℕ)) : String :=
  String.intercalate ","
    (((sortByKey l).take 3).map (fun p => p.1 ++ ":" ++ natToStr p.2))

/-- Faithful `RLBasedFusion._extract_state`: enum-valued types/sources are
counted (custom strings lack the `value` attribute and are skipped), plus the
relation-density bucket and the item count. -/
def extractState (feedbacks : List FeedbackModel) : String :=
  let ftypes := countValues (feedbacks.filterMap (fun f =>
    match f.metadata.feedback_type with
    | .enum t => some t.value
    | .custom _ => none))
  let stypes := countValues (feedbacks.filterMap (fun f =>
    match f.metadata.source with
    | .enum s => some s.value
    | .custom _ => none))
  let n := feedbacks.length
  let rc := (feedbacks.map (fun f => f.relations.length)).sum
  let density : ℚ := if 1 < n then (rc : ℚ) / ((n : ℚ) * ((n : ℚ) - 1)) else 0
  "types:" ++ stateFmt ftypes ++ "|sources:" ++ stateFmt stypes ++
    "|density:" ++ intToStr ⌊density * 10⌋ ++ "|count:" ++ natToStr n

/-- Normalization of one action's weights (uniform fallback when the sum is
not positive), as in `_get_possible_actions`. -/
def normalizeAction (n : ℕ) (ws : List ℚ) : List ℚ :=
  if 0 < ws.sum then ws.map (fun w => w / ws.sum)
  else List.replicate n (1 / (n : ℚ))

/-- Faithful `RLBasedFusion._get_possible_actions`.  The reliability reads
inside the action builders cache lazily; the values they observe are exactly
`relVal`, and the caller accounts for the caching on the item list. -/
def possibleActions (now : ℚ) (feedbacks : List FeedbackModel) :
    List (String × List ℚ) :=
  let n := feedbacks.length
  [("uniform", normalizeAction n (List.replicate n (1 / (n : ℚ)))),
   ("reliability", normalizeAction n (feedbacks.map (relVal now))),
   ("recency", normalizeAction n (feedbacks.map (extractRecencyR now))),
   ("source", normalizeAction n (feedbacks.map extractSourceTypeR)),
   ("feedback_type", normalizeAction n (feedbacks.map extractFeedbackTypeR))]

/-- Faithful `RLBasedFusion._select_action`: epsilon branch picks by the
injected choice index; otherwise the state row is created on demand (a
q-table write), the best-valued action name is looked up, and an unmatched
name falls back to the random choice.  `none` models the `ValueError` Python
raises when `max` runs over an empty row. -/
def selectAction (explore : Bool) (choice : ℕ)
    (q_table : List (String × List (String × ℚ))) (state : String)
    (possible : List (String × List ℚ)) :
    Option (String × List ℚ) × List (String × List (String × ℚ)) :=
  if explore then
    (some (possible.getD (choice % possible.length) ("uniform", [])), q_table)
  else
    let qt :=
      if (q_table.lookup state).isSome then q_table
      else dictInsert q_table state (possible.map (fun a => (a.1, (0 : ℚ))))
    let q_values := (qt.lookup state).getD []
    match dictArgmax q_values with
    | none => (none, qt)
    | some best =>
      match possible.find? (fun a => a.1 == best.1) with
      | some a => (some a, qt)
      | none =>
        (some (possible.getD (choice % possible.length) ("uniform", [])), qt)

/-- Faithful `RLBasedFusion._calculate_reward`: weighted reliabilities plus
the per-ordered-pair SUPPORT penalty and OPPOSE bonus on weight gaps. -/
def calculateReward (now : ℚ) (feedbacks : List FeedbackModel)
    (weights : List ℚ) : ℚ :=
  let base := ((feedbacks.zip weights).map (fun pr => pr.2 * relVal now pr.1)).sum
  let adj := (feedbacks.enum.map (fun pi =>
    ((feedbacks.enum.map (fun pj =>
      if pi.1 ≠ pj.1 then
        ((pi.2.relations.map (fun r =>
          if r.target_id = pj.2.feedback_id ∧
              r.relation_type = RelationType.support then
            -(|weights.getD pi.1 0 - weights.getD pj.1 0| * r.strength)
          else 0)).sum) +
        ((pi.2.relations.map (fun r =>
          if r.target_id = pj.2.feedback_id ∧
              r.relation_type = RelationType.oppose then
            |weights.getD pi.1 0 - weights.getD pj.1 0| * r.strength
          else 0)).sum)
      else 0)).sum))).sum
  base + adj

/-- Maximum of a value list (0 for the empty list; callers guard emptiness). -/
def listMaxD (l : List ℚ) : ℚ := l.foldl max (l.headD 0)

/-- Configuration of `RLBasedFusion.__init__`. -/
structure RLConfig where
  learning_rate : ℚ
  discount_factor : ℚ
  exploration_rate : ℚ
  history_window : ℕ
deriving DecidableEq, Repr

/-- Persistent mutable state of an `RLBasedFusion` instance. -/
structure RLState where
  q_table : List (String × List (String × ℚ))
  history : List (String × String × ℚ)
deriving DecidableEq, Repr

/-- Injected randomness of one `fuse` call: whether `random.random()` fell
under the exploration rate, and the `random.choice` index. -/
structure RLRandom where
  explore : Bool
  choice : ℕ
deriving DecidableEq, Repr

/-- Faithful `RLBasedFusion._update_q_value` (Q-learning recurrence with
on-demand row/cell creation). -/
def updateQValue (cfg : RLConfig) (qt : List (String × List (String × ℚ)))
    (state action : String) (reward : ℚ) (next_state : String) :
    List (String × List (String × ℚ)) :=
  let qt1 := if (qt.lookup state).isSome then qt else dictInsert qt state []
  let sdict := (qt1.lookup state).getD []
  let sdict1 :=
    if (sdict.lookup action).isSome then sdict else dictInsert sdict action 0
  let max_next : ℚ :=
    match qt1.lookup next_state with
    | some nd => if nd ≠ [] then listMaxD (nd.map Prod.snd) else 0
    | none => 0
  let current := (sdict1.lookup action).getD 0
  let newq := current + cfg.learning_rate *
    (reward + cfg.discount_factor * max_next - current)
  dictInsert qt1 state (dictInsert sdict1 action newq)

/-- Replay of the Q update over every consecutive pair of the history window
(lines 395-399). -/
def qUpdateLoop (cfg : RLConfig) :
    List (String × List (String × ℚ)) → List (String × String × ℚ) →
      List (String × List (String × ℚ))
  | qt, (s, a, r) :: (s2, a2, r2) :: rest =>
    qUpdateLoop cfg (updateQValue cfg qt s a r s2) ((s2, a2, r2) :: rest)
  | qt, _ => qt

/-- Numeric coercion for the `value * weight` multiplication: a non-numeric
value raises `TypeError` in Python. -/
def pyValAsNum : PyVal → Except PyError ℚ
  | PyVal.pnum q => Except.ok q
  | _ => Except.error (PyError.typeError "unsupported operand type for *")

/-- Faithful `RLBasedFusion._fuse_content`: all-text concatenation, all-
structured weighted merge (a non-numeric value would raise `TypeError` under
the `value * weight` multiplication), or the mixed-type textual fallback. -/
def rlFuseContent (feedbacks : List FeedbackModel) (weights : List ℚ) :
    Except PyError ContentModel :=
  let cts := (feedbacks.map (fun f => f.content.content_type)).dedup
  if cts = ["text"] then
    let parts := feedbacks.enum.filterMap (fun pr =>
      if (5/100 : ℚ) < weights.getD pr.1 0 then
        some ("(" ++ formatQ2 (weights.getD pr.1 0) ++ ") " ++ pr.2.content.textOf)
      else none)
    Except.ok (ContentModel.text (String.intercalate "\n\n" parts) "zh-CN")
  else if cts = ["structured"] then do
    let fused ← feedbacks.enum.foldlM
      (fun (fused : List (String × ℚ)) pr => do
        if (5/100 : ℚ) < weights.getD pr.1 0 then
          pr.2.content.dataOf.foldlM
            (fun (fused : List (String × ℚ)) kv => do
              let q ← pyValAsNum kv.2
              match fused.lookup kv.1 with
              | some c => pure (dictInsert fused kv.1 (c + q * weights.getD pr.1 0))
              | none => pure (fused ++ [(kv.1, q * weights.getD pr.1 0)]))
            fused
        else pure fused)
      []
    pure (ContentModel.structured (fused.map (fun p => (p.1, PyVal.pnum p.2))))
  else
    let parts := feedbacks.enum.filterMap (fun pr =>
      if (5/100 : ℚ) < weights.getD pr.1 0 then
        some ("(" ++ formatQ2 (weights.getD pr.1 0) ++ ") " ++ pr.2.content.strOf)
      else none)
    Except.ok (ContentModel.text (String.intercalate "\n\n" parts) "zh-CN")

/-- Faithful `RLBasedFusion.fuse` (lines 364-428).  State extraction, action
selection, reward, the history window, and the replayed Q updates all happen
first; the call then always fails with `AttributeError`, because the fused
metadata construction evaluates `SourceType.SYSTEM` and `metadata_model.py`
defines no such enum member (nor `FeedbackType.FUSED`, nor does
`relation_model.py` define `RelationType.DERIVED_FROM`). -/
def rlFuse (cfg : RLConfig) (rng : RLRandom) (now : ℚ) (freshId : String)
    (st : RLState) (feedbacks : List FeedbackModel) :
    (Except PyError (FeedbackModel × List FeedbackModel)) × RLState :=
  if feedbacks = [] then
    (Except.error (PyError.valueError "No feedbacks to fuse"), st)
  else
    let current_state := extractState feedbacks
    let possible := possibleActions now feedbacks
    let fb1 := feedbacks.map (cacheRel now)
    match selectAction rng.explore rng.choice st.q_table current_state possible with
    | (none, qt1) =>
      (Except.error (PyError.valueError "max() arg is an empty sequence"),
       { st with q_table := qt1 })
    | (some action, qt1) =>
      let reward := calculateReward now feedbacks action.2
      let hist1 := st.history ++ [(current_state, action.1, reward)]
      let hist2 := if cfg.history_window < hist1.length then hist1.drop 1 else hist1
      let qt2 := if 2 ≤ hist2.length then qUpdateLoop cfg qt1 hist2 else qt1
      let st2 : RLState := { q_table := qt2, history := hist2 }
      match rlFuseContent fb1 action.2 with
      | Except.error e => (Except.error e, st2)
      | Except.ok _ => (Except.error (PyError.attributeError "SYSTEM"), st2)

/-- One record of the hybrid engine's in-memory strategy history. -/
structure HistoryRecord where
  timestamp : ℚ
  strategy : String
  task_type : Option String
  num_feedbacks : ℕ
  feedback_types : List String
  feedback_sources : List String
deriving DecidableEq, Repr

/-- Mutable state of a `HybridFusionEngine` instance. -/
structure HybridState where
  strategy_history : List HistoryRecord
deriving DecidableEq, Repr

/-- The record appended by `HybridFusionEngine.fuse` (lines 113-123). -/
def mkHistoryRecord (now : ℚ) (strategy : String) (task_type : Option String)
    (feedbacks : List FeedbackModel) : HistoryRecord :=
  { timestamp := now
    strategy := strategy
    task_type := task_type
    num_feedbacks := feedbacks.length
    feedback_types := feedbacks.map (fun f => f.metadata.feedback_type.valueStr)
    feedback_sources := feedbacks.map (fun f => f.metadata.source.valueStr) }

/-- Defaults of `RLBasedFusion.__init__`, used by the hybrid engine's own
instance. -/
def defaultRLConfig : RLConfig :=
  { learning_rate := 1/100, discount_factor := 9/10,
    exploration_rate := 1/10, history_window := 10 }

/-- Faithful `HybridFusionEngine.fuse` (`src/core/fusion/hybrid_fusion.py`,
lines 95-133): empty check, strategy selection, history append, delegation to
the strategy instance (graph with threshold 0.5 and 3 iterations, attention
with 4 heads and dropout 0.1, RL with its defaults), then the strategy tag.
The history append precedes the delegation, so it survives a delegation
error. -/
def hybridFuse (p : AttentionParams) (rng : RLRandom) (now : ℚ)
    (freshId : String) (hst : HybridState) (rst : RLState)
    (feedbacks : List FeedbackModel) (task_type : Option String) :
    (Except PyError (FeedbackModel × List FeedbackModel)) × HybridState × RLState :=
  if feedbacks = [] then
    (Except.error (PyError.valueError "No feedbacks to fuse"), hst, rst)
  else
    let strategy_name := selectStrategy feedbacks task_type
    let hst2 : HybridState :=
      { strategy_history := hst.strategy_history ++
          [mkHistoryRecord now strategy_name task_type feedbacks] }
    let result :=
      if strategy_name = "graph" then (graphFuse (1/2) 3 now freshId feedbacks, rst)
      else if strategy_name = "rl" then
        rlFuse defaultRLConfig rng now freshId rst feedbacks
      else
        (attentionFuse { p with attention_heads := 4, attention_dropout := 1/10 }
          now freshId feedbacks, rst)
    match result with
    | (Except.error e, rst2) => (Except.error e, hst2, rst2)
    | (Except.ok (fused, fb1), rst2) =>
      let fused2 : FeedbackModel :=
        { fused with metadata := { fused.metadata with
            tags := fused.metadata.tags ++ ["fusion_strategy:" ++ strategy_name] } }
      (Except.ok (fused2, fb1), hst2, rst2)

/-- C7: called on an empty item list, every strategy's fuse and the hybrid
selector's fuse fail fast with the invalid-argument error before any fusion
work, and without changing any engine state (the RL q-table/history and the
hybrid history are returned unchanged). -/
theorem C7_empty_input (threshold : ℚ) (maxIter : ℕ) (now : ℚ) (freshId : String)
    (p : AttentionParams) (cfg : RLConfig) (rng : RLRandom) (hst : HybridState)
    (rst : RLState) (task_type : Option String) :
    graphFuse threshold maxIter now freshId [] =
      Except.error (PyError.valueError "No feedbacks to fuse") ∧
    attentionFuse p now freshId [] =
      Except.error (PyError.valueError "No feedbacks to fuse") ∧
    rlFuse cfg rng now freshId rst [] =
      (Except.error (PyError.valueError "No feedbacks to fuse"), rst) ∧
    hybridFuse p rng now freshId hst rst [] task_type =
      (Except.error (PyError.valueError "No feedbacks to fuse"), hst, rst) :=
  ⟨rfl, rfl, rfl, rfl⟩

/-- C10: every hybrid fuse on a non-empty list appends exactly one history
record — with the timestamp, chosen strategy, task type, item count and the
per-item type/source value lists — and the append happens before delegation,
so the new record is present in the returned state regardless of whether the
delegated strategy returned or raised. -/
theorem C10_hybrid_history (p : AttentionParams) (rng : RLRandom) (now : ℚ)
    (freshId : String) (hst : HybridState) (rst : RLState)
    (feedbacks : List FeedbackModel) (task_type : Option String)
    (hne : feedbacks ≠ []) :
    ((hybridFuse p rng now freshId hst rst feedbacks task_type).2.1).strategy_history
      = hst.strategy_history ++
        [mkHistoryRecord now (selectStrategy feedbacks task_type) task_type feedbacks] ∧
    (mkHistoryRecord now (selectStrategy feedbacks task_type) task_type
        feedbacks).num_feedbacks = feedbacks.length ∧
    (mkHistoryRecord now (selectStrategy feedbacks task_type) task_type
        feedbacks).timestamp = now ∧
    (mkHistoryRecord now (selectStrategy feedbacks task_type) task_type
        feedbacks).task_type = task_type := by
  refine ⟨?_, rfl, rfl, rfl⟩
  unfold hybridFuse
  rw [if_neg hne]
  dsimp only
  split
  · rfl
  · rfl

/-- Witness for C10: a 3-item, single-source, long-term-optimization call is
routed to the RL strategy and still records exactly its one history entry. -/
theorem C10_hybrid_history_witness :
    ((hybridFuse
        { attention_heads := 4, attention_dropout := 0,
          query_weights := fun _ _ _ => 0, key_weights := fun _ _ _ => 0,
          value_weights := fun _ _ _ => 0, output_weights := fun _ _ => 0,
          dropMask := fun _ _ _ => 1, pexp := fun _ => 1, sqrtf := fun _ => 1 }
        { explore := true, choice := 0 } 0 "h0"
        { strategy_history := [] } { q_table := [], history := [] }
        [scB2, scB3, scA2] (some "long_term_optimization")).2.1).strategy_history
      = [mkHistoryRecord 0
          (selectStrategy [scB2, scB3, scA2] (some "long_term_optimization"))
          (some "long_term_optimization") [scB2, scB3, scA2]] := by
  have h := (C10_hybrid_history
    { attention_heads := 4, attention_dropout := 0,
      query_weights := fun _ _ _ => 0, key_weights := fun _ _ _ => 0,
      value_weights := fun _ _ _ => 0, output_weights := fun _ _ => 0,
      dropMask := fun _ _ _ => 1, pexp := fun _ => 1, sqrtf := fun _ => 1 }
    { explore := true, choice := 0 } 0 "h0"
    { strategy_history := [] } { q_table := [], history := [] }
    [scB2, scB3, scA2] (some "long_term_optimization") (by simp)).1
  simpa using h

/-- Concrete single-item input for the C3 failing call. -/
def c3item : FeedbackModel :=
  sampleItem "r1" SourceType.humanDoctor FeedbackType.diagnostic "症状 改善"
    (some (4/5)) []

/-- C3: `RLBasedFusion.fuse` never returns on a non-empty input — after the
state/action/reward bookkeeping and the content fusion it evaluates
`SourceType.SYSTEM`, which `metadata_model.py` does not define, and raises
`AttributeError`; here evaluated at a concrete one-item input. -/
theorem C3_rl_fuse_raises :
    (rlFuse defaultRLConfig { explore := true, choice := 0 } 0 "rz"
      { q_table := [], history := [] } [c3item]).1 =
      Except.error (PyError.attributeError "SYSTEM") := by
  norm_num [rlFuse, possibleActions, selectAction, rlFuseContent, normalizeAction,
    c3item, sampleItem, cacheRel, FeedbackModel.get_reliability, relVal,
    ContentModel.content_type, List.dedup]

/-- When the attention normalization goes through (nonzero denominator), the
resulting weights are nonnegative and sum to exactly 1. -/
theorem attnWeights_simplex (p : AttentionParams) (now : ℚ)
    (feedbacks : List FeedbackModel) (ws : List ℚ)
    (h : (attnWeights p now feedbacks).1 = some ws) :
    (∀ w ∈ ws, 0 ≤ w) ∧ ws.sum = 1 := by
  unfold attnWeights at h
  dsimp only at h
  by_cases hz : ((List.range feedbacks.length).map (fun i =>
      |attnOutput p (extractFeaturesList now feedbacks).1 feedbacks.length i 0|)).sum = 0
  · rw [if_pos hz] at h
    exact absurd h (by simp)
  · rw [if_neg hz] at h
    have hws := Option.some.inj h
    subst hws
    have hnn : ∀ x ∈ (List.range feedbacks.length).map (fun i =>
        |attnOutput p (extractFeaturesList now feedbacks).1 feedbacks.length i 0|),
        0 ≤ x := by
      intro x hx
      obtain ⟨i, _, hix⟩ := List.mem_map.mp hx
      rw [← hix]
      exact abs_nonneg _
    constructor
    · intro w hw
      obtain ⟨x, hx, hxw⟩ := List.mem_map.mp hw
      rw [← hxw]
      exact div_nonneg (hnn x hx) (List.sum_nonneg hnn)
    · rw [sum_map_div]
      exact div_self hz

/-- Normalized action weights are a simplex, given a nonempty length target
and nonnegative raw entries. -/
theorem normalizeAction_simplex (n : ℕ) (hn : n ≠ 0) (ws : List ℚ)
    (hpos : ∀ w ∈ ws, 0 ≤ w) :
    (∀ w ∈ normalizeAction n ws, 0 ≤ w) ∧ (normalizeAction n ws).sum = 1 := by
  unfold normalizeAction
  by_cases hs : 0 < ws.sum
  · rw [if_pos hs]
    constructor
    · intro w hw
      obtain ⟨x, hx, hxw⟩ := List.mem_map.mp hw
      rw [← hxw]
      exact div_nonneg (hpos x hx) (le_of_lt hs)
    · rw [sum_map_div]
      exact div_self (ne_of_gt hs)
  · rw [if_neg hs]
    have hq : ((n : ℚ)) ≠ 0 := Nat.cast_ne_zero.mpr hn
    constructor
    · intro w hw
      rw [List.eq_of_mem_replicate hw]
      positivity
    · rw [List.sum_replicate, nsmul_eq_mul]
      field_simp

/-- The RL recency feature is nonnegative. -/
theorem extractRecencyR_nonneg (now : ℚ) (f : FeedbackModel) :
    0 ≤ extractRecencyR now f := le_max_left 0 _

/-- The RL source feature is nonnegative. -/
theorem extractSourceTypeR_nonneg (f : FeedbackModel) :
    0 ≤ extractSourceTypeR f := by
  unfold extractSourceTypeR
  cases f.metadata.source with
  | enum s => dsimp only; split_ifs <;> norm_num
  | custom s => norm_num

/-- The RL feedback-type feature is nonnegative. -/
theorem extractFeedbackTypeR_nonneg (f : FeedbackModel) :
    0 ≤ extractFeedbackTypeR f := by
  unfold extractFeedbackTypeR
  cases f.metadata.feedback_type with
  | enum t => dsimp only; split_ifs <;> norm_num
  | custom t => norm_num

/-- A positionally defaulted read at a valid index is a member. -/
theorem getD_mem {α : Type} {l : List α} {i : ℕ} (h : i < l.length) (d : α) :
    l.getD i d ∈ l := by
  rw [List.getD_eq_getElem l d h]
  exact List.getElem_mem h

/-- The first-maximum scan returns a member of the dict. -/
theorem dictArgmax_mem :
    ∀ (l : List (String × ℚ)) (b : String × ℚ), dictArgmax l = some b → b ∈ l
  | [], _, h => by simp [dictArgmax] at h
  | p :: ps, b, h => by
    have hfold : ∀ (qs : List (String × ℚ)) (a : String × ℚ),
        (qs.foldl (fun best q => if best.2 < q.2 then q else best) a) = a ∨
        (qs.foldl (fun best q => if best.2 < q.2 then q else best) a) ∈ qs := by
      intro qs
      induction qs with
      | nil => intro a; exact Or.inl rfl
      | cons q qs ih =>
        intro a
        rw [List.foldl_cons]
        rcases ih (if a.2 < q.2 then q else a) with h1 | h1
        · rw [h1]
          by_cases hc : a.2 < q.2
          · rw [if_pos hc]; exact Or.inr (List.mem_cons_self _ _)
          · rw [if_neg hc]; exact Or.inl rfl
        · exact Or.inr (List.mem_cons_of_mem _ h1)
    have hb := Option.some.inj h
    rcases hfold ps p with h1 | h1
    · rw [← hb, h1]; exact List.mem_cons_self _ _
    · rw [← hb]; exact List.mem_cons_of_mem _ h1

/-- Whatever action `_select_action` settles on is one of the candidates. -/
theorem selectAction_mem {explore : Bool} {choice : ℕ}
    {q_table : List (String × List (String × ℚ))} {state : String}
    {possible : List (String × List ℚ)} {a : String × List ℚ}
    {qt : List (String × List (String × ℚ))}
    (hne : possible ≠ [])
    (h : selectAction explore choice q_table state possible = (some a, qt)) :
    a ∈ possible := by
  have hlen : 0 < possible.length := List.length_pos.mpr hne
  have hmod : choice % possible.length < possible.length := Nat.mod_lt _ hlen
  unfold selectAction at h
  by_cases hexp : explore = true
  · rw [if_pos hexp] at h
    have := (Prod.mk.injEq _ _ _ _).mp h
    have ha := Option.some.inj this.1
    rw [← ha]
    exact getD_mem hmod _
  · rw [if_neg hexp] at h
    dsimp only at h
    cases harg : dictArgmax (((if (q_table.lookup state).isSome then q_table
        else dictInsert q_table state
          (possible.map (fun a => (a.1, (0 : ℚ))))).lookup state).getD []) with
    | none => rw [harg] at h; simp at h
    | some best =>
      rw [harg] at h
      dsimp only at h
      cases hfind : possible.find? (fun x => x.1 == best.1) with
      | none =>
        rw [hfind] at h
        have := (Prod.mk.injEq _ _ _ _).mp h
        have ha := Option.some.inj this.1
        rw [← ha]
        exact getD_mem hmod _
      | some x =>
        rw [hfind] at h
        have := (Prod.mk.injEq _ _ _ _).mp h
        have ha := Option.some.inj this.1
        rw [← ha]
        exact List.mem_of_find?_eq_some hfind

/-- Every candidate action of `_get_possible_actions` is a simplex, given a
non-empty input and nonnegative reliabilities. -/
theorem possibleActions_simplex (now : ℚ) (feedbacks : List FeedbackModel)
    (hne : feedbacks ≠ [])
    (hrv : ∀ f ∈ feedbacks, 0 ≤ relVal now f) :
    ∀ a ∈ possibleActions now feedbacks, (∀ w ∈ a.2, 0 ≤ w) ∧ a.2.sum = 1 := by
  intro a ha
  have hn : feedbacks.length ≠ 0 := fun h => hne (List.length_eq_zero.mp h)
  simp only [possibleActions, List.mem_cons, List.not_mem_nil, or_false] at ha
  rcases ha with rfl | rfl | rfl | rfl | rfl
  · refine normalizeAction_simplex _ hn _ (fun w hw => ?_)
    rw [List.eq_of_mem_replicate hw]
    exact one_div_nonneg.mpr (Nat.cast_nonneg _)
  · refine normalizeAction_simplex _ hn _ (fun w hw => ?_)
    obtain ⟨f, hf, hfw⟩ := List.mem_map.mp hw
    exact hfw ▸ hrv f hf
  · refine normalizeAction_simplex _ hn _ (fun w hw => ?_)
    obtain ⟨f, hf, hfw⟩ := List.mem_map.mp hw
    exact hfw ▸ extractRecencyR_nonneg now f
  · refine normalizeAction_simplex _ hn _ (fun w hw => ?_)
    obtain ⟨f, hf, hfw⟩ := List.mem_map.mp hw
    exact hfw ▸ extractSourceTypeR_nonneg f
  · refine normalizeAction_simplex _ hn _ (fun w hw => ?_)
    obtain ⟨f, hf, hfw⟩ := List.mem_map.mp hw
    exact hfw ▸ extractFeedbackTypeR_nonneg f

/-- C1 (amended): for non-empty inputs the graph strategy's weights are a
probability simplex (nonnegative, summing to exactly 1, with the uniform
fallback covering a zero denominator), as are the RL strategy's selected
action weights (each action normalizes with a uniform fallback); the
attention strategy's weights are nonnegative and sum to 1 whenever its
normalization denominator is nonzero — but it has no uniform fallback for a
zero denominator (see the counterexample). -/
theorem C1_weights_simplex :
    (∀ (threshold : ℚ) (maxIter : ℕ) (now : ℚ) (feedbacks : List FeedbackModel),
      feedbacks ≠ [] →
      (feedbacks.map FeedbackModel.feedback_id).Nodup →
      (∀ f ∈ feedbacks, ∀ r ∈ f.relations, 0 ≤ r.strength ∧ r.strength ≤ 1) →
      (∀ f ∈ feedbacks, 0 ≤ relVal now f ∧ relVal now f ≤ 1) →
      (∀ p ∈ graphFuseWeights threshold maxIter now feedbacks, 0 ≤ p.2) ∧
        ((graphFuseWeights threshold maxIter now feedbacks).map Prod.snd).sum = 1) ∧
    (∀ (p : AttentionParams) (now : ℚ) (feedbacks : List FeedbackModel)
        (ws : List ℚ),
      (attnWeights p now feedbacks).1 = some ws →
      (∀ w ∈ ws, 0 ≤ w) ∧ ws.sum = 1) ∧
    (∀ (explore : Bool) (choice : ℕ)
        (q_table : List (String × List (String × ℚ))) (now : ℚ)
        (feedbacks : List FeedbackModel) (a : String × List ℚ)
        (qt : List (String × List (String × ℚ))),
      feedbacks ≠ [] →
      (∀ f ∈ feedbacks, 0 ≤ relVal now f) →
      selectAction explore choice q_table (extractState feedbacks)
        (possibleActions now feedbacks) = (some a, qt) →
      (∀ w ∈ a.2, 0 ≤ w) ∧ a.2.sum = 1) :=
  ⟨fun t m now fb h1 h2 h3 h4 => graphWeights_simplex t m now fb h1 h2 h3 h4,
   fun p now fb ws h => attnWeights_simplex p now fb ws h,
   fun _ _ _ now fb a _ h1 h2 h3 =>
     possibleActions_simplex now fb h1 h2 a
       (selectAction_mem (by simp [possibleActions]) h3)⟩

/-- All-zero attention parameters (a possible draw of the random projection
matrices), with dropout off. -/
def pZero : AttentionParams :=
  { attention_heads := 4, attention_dropout := 0,
    query_weights := fun _ _ _ => 0, key_weights := fun _ _ _ => 0,
    value_weights := fun _ _ _ => 0, output_weights := fun _ _ => 0,
    dropMask := fun _ _ _ => 1, pexp := fun _ => 1, sqrtf := fun _ => 1 }

/-- C1 counterexample: with the all-zero output projection the attention
normalization denominator is 0, and the strategy does not fall back to the
uniform distribution — the weights are the NaN vector (modelled `none`; the
fused call surfaces the embedding's NaN marker), not `some [1]`. -/
theorem C1_counterexample :
    (attnWeights pZero 0 [scA1]).1 = none ∧
    attentionFuse pZero 0 "az" [scA1] = Except.error PyError.nanWeights ∧
    ¬ (attnWeights pZero 0 [scA1]).1 = some [(1 : ℚ)] := by
  have h1 : (attnWeights pZero 0 [scA1]).1 = none := by
    norm_num [attnWeights, attnOutput, pZero]
  refine ⟨h1, ?_, by rw [h1]; simp⟩
  unfold attentionFuse
  rw [if_neg (by simp)]
  dsimp only
  rw [h1]

/-- One-head attention parameters whose value/output projections pick the
reliability feature (a possible draw of the random matrices), dropout off. -/
def pPick : AttentionParams :=
  { attention_heads := 1, attention_dropout := 0,
    query_weights := fun _ _ _ => 0, key_weights := fun _ _ _ => 0,
    value_weights := fun _ k j => if k = 0 ∧ j = 0 then 1 else 0,
    output_weights := fun k j => if k = 0 ∧ j = 0 then 1 else 0,
    dropMask := fun _ _ _ => 1, pexp := fun _ => 1, sqrtf := fun _ => 1 }

/-- Concrete item with stored reliability 1 for the C1 witness. -/
def scW : FeedbackModel :=
  sampleItem "w1" SourceType.humanDoctor FeedbackType.diagnostic "" (some 1) []

set_option maxHeartbeats 1000000 in
/-- Witness for C1 at concrete inputs: the graph weights on a one-item input,
the attention weights of a concrete non-degenerate instance, and the RL
action selected on a one-item input are all simplexes. -/
theorem C1_weights_simplex_witness :
    ((∀ q ∈ graphFuseWeights (1/2) 3 0 [scA1], 0 ≤ q.2) ∧
      ((graphFuseWeights (1/2) 3 0 [scA1]).map Prod.snd).sum = 1) ∧
    ((∀ w ∈ [(1 : ℚ)], 0 ≤ w) ∧ [(1 : ℚ)].sum = 1) ∧
    ((∀ w ∈ [(1 : ℚ)], 0 ≤ w) ∧ [(1 : ℚ)].sum = 1) := by
  have hrelA : ∀ f ∈ [scA1], 0 ≤ relVal 0 f ∧ relVal 0 f ≤ 1 := by
    intro f hf
    fin_cases hf
    constructor <;>
      norm_num [relVal, FeedbackModel.get_reliability, scA1, sampleItem]
  have hm0 : matCell (extractFeaturesList 0 [scW]).1 0 0 = 1 := rfl
  have hattn : (attnWeights pPick 0 [scW]).1 = some [(1 : ℚ)] := by
    norm_num [attnWeights, attnOutput, concatCell, headOutput, droppedCell,
      softmaxCell, attnScore, projCell, rowMax, hm0, pPick,
      List.range_succ]
  have hsel : selectAction true 0 [] (extractState [scA1])
      (possibleActions 0 [scA1]) = (some ("uniform", [(1 : ℚ)]), []) := by
    have h1 : selectAction true 0 [] (extractState [scA1])
        (possibleActions 0 [scA1]) =
        (some ((possibleActions 0 [scA1]).getD
          (0 % (possibleActions 0 [scA1]).length) ("uniform", [])), []) := by
      unfold selectAction
      rw [if_pos rfl]
    rw [h1]
    have h2 : (possibleActions 0 [scA1]).getD
        (0 % (possibleActions 0 [scA1]).length) ("uniform", []) =
        ("uniform", normalizeAction 1 (List.replicate 1 (1 / ((1 : ℕ) : ℚ)))) := rfl
    rw [h2]
    norm_num [normalizeAction]
  refine ⟨?_, ?_, ?_⟩
  · exact C1_weights_simplex.1 (1/2) 3 0 [scA1] (by simp) (by simp)
      (fun f hf r hr => by fin_cases hf; simp [scA1, sampleItem] at hr) hrelA
  · exact C1_weights_simplex.2.1 pPick 0 [scW] [(1 : ℚ)] hattn
  · exact C1_weights_simplex.2.2 true 0 [] 0 [scA1] ("uniform", [(1 : ℚ)]) []
      (by simp) (fun f hf => (hrelA f hf).1) hsel

/-- Projections of a constructed map that are pointwise constant collapse to a
replicate. -/
theorem map_proj_replicate {α β γ : Type} (g : α → β) (proj : β → γ) (c : γ)
    (hp : ∀ a, proj (g a) = c) :
    ∀ l : List α, (l.map g).map proj = List.replicate l.length c
  | [] => rfl
  | x :: xs => by
    simp only [List.map_cons, List.length_cons, List.replicate_succ, hp]
    rw [map_proj_replicate g proj c hp xs]

/-- Projections of a constructed map rewrite pointwise to a direct map. -/
theorem map_proj_map {α β γ : Type} (g : α → β) (proj : β → γ) (h : α → γ)
    (hp : ∀ a, proj (g a) = h a) :
    ∀ l : List α, (l.map g).map proj = l.map h
  | [] => rfl
  | x :: xs => by
    simp only [List.map_cons, hp]
    rw [map_proj_map g proj h hp xs]

/-- Membership gives Boolean containment for string lists. -/
theorem contains_of_mem : ∀ {l : List String} {a : String},
    a ∈ l → l.contains a = true
  | [], a, h => absurd h (List.not_mem_nil a)
  | x :: xs, a, h => by
    rw [List.contains_cons]
    rcases List.mem_cons.mp h with h1 | h1
    · subst h1
      simp
    · rw [contains_of_mem h1]
      simp

/-- A list holding a witness of the predicate has a successful scan. -/
theorem find_isSome_of_mem {α : Type} {p : α → Bool} :
    ∀ {l : List α} {x : α}, x ∈ l → p x = true → (l.find? p).isSome = true
  | [], x, hx, _ => absurd hx (List.not_mem_nil x)
  | y :: ys, x, hx, hp => by
    by_cases hy : p y = true
    · rw [List.find?_cons_of_pos ys hy]
      rfl
    · rw [List.find?_cons_of_neg ys hy]
      rcases List.mem_cons.mp hx with h1 | h1
      · subst h1
        exact absurd hp hy
      · exact find_isSome_of_mem h1 hp

/-- The first-maximum scan succeeds on every non-empty dict. -/
theorem dictArgmax_isSome (l : List (String × ℚ)) (h : l ≠ []) :
    (dictArgmax l).isSome = true := by
  cases l with
  | nil => exact absurd rfl h
  | cons p ps => rfl

/-- One attention feature-extraction step returns the cached item. -/
theorem extractFeaturesA_snd (now : ℚ) (f : FeedbackModel) :
    (extractFeaturesA now f).2 = cacheRel now f := rfl

/-- The attention feature fold appends the cached items. -/
theorem extractFeaturesFold_snd (now : ℚ) :
    ∀ (fs : List FeedbackModel) (acc : List (List ℚ) × List FeedbackModel),
      (fs.foldl (fun acc f =>
        let q := extractFeaturesA now f
        (acc.1 ++ [q.1], acc.2 ++ [q.2])) acc).2 = acc.2 ++ fs.map (cacheRel now)
  | [], acc => by simp
  | f :: fs, acc => by
    rw [List.foldl_cons, extractFeaturesFold_snd now fs _]
    dsimp only
    rw [extractFeaturesA_snd]
    simp

/-- Attention feature extraction returns the lazily cached input items. -/
theorem extractFeaturesList_snd (now : ℚ) (feedbacks : List FeedbackModel) :
    (extractFeaturesList now feedbacks).2 = feedbacks.map (cacheRel now) := by
  unfold extractFeaturesList
  rw [extractFeaturesFold_snd now feedbacks ([], [])]
  simp

/-- The attention weight pipeline returns the lazily cached input items. -/
theorem attnWeights_snd (p : AttentionParams) (now : ℚ)
    (feedbacks : List FeedbackModel) :
    (attnWeights p now feedbacks).2 = feedbacks.map (cacheRel now) := by
  unfold attnWeights
  dsimp only
  exact extractFeaturesList_snd now feedbacks

/-- A successful attention-weight computation has one weight per input item. -/
theorem attnWeights_length (p : AttentionParams) (now : ℚ)
    (feedbacks : List FeedbackModel) (ws : List ℚ)
    (h : (attnWeights p now feedbacks).1 = some ws) :
    ws.length = feedbacks.length := by
  unfold attnWeights at h
  dsimp only at h
  by_cases hz : ((List.range feedbacks.length).map (fun i =>
      |attnOutput p (extractFeaturesList now feedbacks).1 feedbacks.length i 0|)).sum = 0
  · rw [if_pos hz] at h
    exact absurd h (by simp)
  · rw [if_neg hz] at h
    have hws := Option.some.inj h
    rw [← hws]
    simp

/-- The effective attention `fuse` on a successful weight computation: REFINE
relations on the new item whose strengths are exactly the normalized attention
weights, and the inputs returned with only the reliability cache applied. -/
theorem attentionFuse_ok (p : AttentionParams) (now : ℚ) (fid : String)
    (feedbacks : List FeedbackModel) (ws : List ℚ)
    (hne : feedbacks ≠ [])
    (h : (attnWeights p now feedbacks).1 = some ws) :
    ∃ fused : FeedbackModel,
      attentionFuse p now fid feedbacks =
        Except.ok (fused, feedbacks.map (cacheRel now)) ∧
      fused.relations.map (fun r => r.strength) = ws ∧
      fused.relations.map (fun r => r.relation_type) =
        List.replicate feedbacks.length RelationType.refine := by
  have hsnd := attnWeights_snd p now feedbacks
  have hlen := attnWeights_length p now feedbacks ws h
  have hsim := attnWeights_simplex p now feedbacks ws h
  have hle1 : ∀ w ∈ ws, w ≤ 1 := fun w hw =>
    le_of_le_of_eq (List.single_le_sum hsim.1 w hw) hsim.2
  have hlen2 : ws.length ≤ (feedbacks.map (cacheRel now)).length := by
    rw [List.length_map, hlen]
  unfold attentionFuse
  rw [if_neg hne]
  dsimp only
  rw [h]
  dsimp only
  rw [hsnd]
  refine ⟨_, rfl, ?_, ?_⟩
  · dsimp only
    rw [List.map_map]
    have hcomp : ((fun r : RelationModel => r.strength) ∘
        (fun pr : FeedbackModel × ℚ => RelationModel.make fid pr.1.feedback_id
          RelationType.refine pr.2 [("attention_weight", pr.2)])) =
        (fun w : ℚ => max 0 (min 1 w)) ∘ Prod.snd := rfl
    rw [hcomp, ← List.map_map, List.map_snd_zip _ _ hlen2]
    refine (List.map_congr_left (fun w hw => ?_)).trans (List.map_id ws)
    rw [min_eq_right (hle1 w hw), max_eq_right (hsim.1 w hw)]
    rfl
  · dsimp only
    rw [List.map_map]
    have hcomp : ((fun r : RelationModel => r.relation_type) ∘
        (fun pr : FeedbackModel × ℚ => RelationModel.make fid pr.1.feedback_id
          RelationType.refine pr.2 [("attention_weight", pr.2)])) =
        (fun pr : FeedbackModel × ℚ => RelationType.refine) := rfl
    rw [hcomp, List.map_const', List.length_zip, List.length_map, hlen]
    simp

/-- Doctor item of the C5 medical scenario (stored reliability, so the weight
pipeline leaves it unchanged). -/
def c5doc : FeedbackModel :=
  sampleItem "d1" SourceType.humanDoctor FeedbackType.diagnostic "" (some 1) []

/-- Patient item of the C5 medical scenario. -/
def c5pat : FeedbackModel :=
  sampleItem "p1" SourceType.humanPatient FeedbackType.textual "" (some 1) []

set_option maxHeartbeats 1000000 in
/-- Counterexample for C5: the two-item doctor/patient input is detected as
medical domain and the domain attention weights [9/13, 4/13] differ from the
attention weights [1/2, 1/2], yet the strengths `fuse` stores on the REFINE
relations are exactly the unblended attention weights — the 50/50 blend of
the first `fuse` definition is dead code, shadowed by the second. -/
theorem C5_counterexample :
    isMedicalDomain [c5doc, c5pat] = true ∧
    (attentionFuse pPick 0 "fz" [c5doc, c5pat]).toOption.map
        (fun pr => pr.1.relations.map (fun r => r.strength)) =
      some [(1/2 : ℚ), 1/2] ∧
    computeMedicalAttentionWeights [c5doc, c5pat] = [(9/13 : ℚ), 4/13] ∧
    (1/2 : ℚ) * (1/2) + (1/2) * (9/13) ≠ (1/2 : ℚ) := by
  have hm0 : matCell (extractFeaturesList 0 [c5doc, c5pat]).1 0 0 = 1 := rfl
  have hm1 : matCell (extractFeaturesList 0 [c5doc, c5pat]).1 1 0 = 1 := rfl
  have hattn2 : (attnWeights pPick 0 [c5doc, c5pat]).1 = some [(1/2 : ℚ), 1/2] := by
    norm_num [attnWeights, attnOutput, concatCell, headOutput, droppedCell,
      softmaxCell, attnScore, projCell, rowMax, hm0, hm1, pPick, List.range_succ]
  obtain ⟨fused, heq, hstr, -⟩ :=
    attentionFuse_ok pPick 0 "fz" [c5doc, c5pat] [(1/2 : ℚ), 1/2] (by simp) hattn2
  have ha1 : pyIn "doctor" (pyLower "human.doctor") = true := by decide
  have ha2 : pyIn "specialist" (pyLower "human.doctor") = false := by decide
  have ha3 : pyIn "patient" (pyLower "human.doctor") = false := by decide
  have ha4 : pyIn "emergency" (pyLower "diagnostic") = false := by decide
  have ha5 : pyIn "therapeutic" (pyLower "diagnostic") = false := by decide
  have ha6 : pyIn "diagnostic" (pyLower "diagnostic") = true := by decide
  have ha7 : (medicalCriticalTerms.any (fun t => pyIn t (pyLower ""))) = false := by
    decide
  have hb1 : pyIn "doctor" (pyLower "human.patient") = false := by decide
  have hb2 : pyIn "specialist" (pyLower "human.patient") = false := by decide
  have hb3 : pyIn "patient" (pyLower "human.patient") = true := by decide
  have hb4 : pyIn "emergency" (pyLower "textual") = false := by decide
  have hb5 : pyIn "therapeutic" (pyLower "textual") = false := by decide
  have hb6 : pyIn "diagnostic" (pyLower "textual") = false := by decide
  have hwd : medicalWeightFor c5doc = 9/5 := by
    norm_num [medicalWeightFor, c5doc, sampleItem, SourceType.value,
      FeedbackType.value, ContentModel.hasText, ContentModel.textOf,
      ha1, ha2, ha3, ha4, ha5, ha6, ha7]
  have hwp : medicalWeightFor c5pat = 4/5 := by
    norm_num [medicalWeightFor, c5pat, sampleItem, SourceType.value,
      FeedbackType.value, ContentModel.hasText, ContentModel.textOf,
      hb1, hb2, hb3, hb4, hb5, hb6, ha7]
  have hmedw : computeMedicalAttentionWeights [c5doc, c5pat] = [(9/13 : ℚ), 4/13] := by
    norm_num [computeMedicalAttentionWeights, hwd, hwp]
  refine ⟨by decide, ?_, hmedw, by norm_num⟩
  rw [heq]
  exact congrArg some hstr

/-- C5 (amended): the effective `AttentionBasedFusion.fuse` (the second,
shadowing definition) applies no medical blend at all — whether or not the
input is detected as medical domain, the per-item weights it stores on the
REFINE relations are exactly the normalized attention weights; the 50/50
blend with `compute_medical_attention_weights` lives only in the shadowed
first definition and is unreachable. -/
theorem C5_attention_no_blend (p : AttentionParams) (now : ℚ) (fid : String)
    (feedbacks : List FeedbackModel) (ws : List ℚ)
    (hne : feedbacks ≠ [])
    (h : (attnWeights p now feedbacks).1 = some ws) :
    ∃ fused : FeedbackModel,
      attentionFuse p now fid feedbacks =
        Except.ok (fused, feedbacks.map (cacheRel now)) ∧
      fused.relations.map (fun r => r.strength) = ws ∧
      fused.relations.map (fun r => r.relation_type) =
        List.replicate feedbacks.length RelationType.refine ∧
      (isMedicalDomain feedbacks = true →
        fused.relations.map (fun r => r.strength) = ws) := by
  obtain ⟨fused, heq, hstr, htyp⟩ := attentionFuse_ok p now fid feedbacks ws hne h
  exact ⟨fused, heq, hstr, htyp, fun _ => hstr⟩

set_option maxHeartbeats 1000000 in
/-- Witness for C5 at a concrete medical-domain input: the stored strengths
are the attention weights themselves even though the item is detected as
medical. -/
theorem C5_attention_no_blend_witness :
    ([scW] : List FeedbackModel) ≠ [] ∧
    (attnWeights pPick 0 [scW]).1 = some [(1 : ℚ)] ∧
    ∃ fused : FeedbackModel,
      attentionFuse pPick 0 "fz" [scW] =
        Except.ok (fused, [scW].map (cacheRel 0)) ∧
      fused.relations.map (fun r => r.strength) = [(1 : ℚ)] ∧
      fused.relations.map (fun r => r.relation_type) =
        List.replicate [scW].length RelationType.refine ∧
      (isMedicalDomain [scW] = true →
        fused.relations.map (fun r => r.strength) = [(1 : ℚ)]) := by
  have hm0 : matCell (extractFeaturesList 0 [scW]).1 0 0 = 1 := rfl
  have hattn : (attnWeights pPick 0 [scW]).1 = some [(1 : ℚ)] := by
    norm_num [attnWeights, attnOutput, concatCell, headOutput, droppedCell,
      softmaxCell, attnScore, projCell, rowMax, hm0, pPick, List.range_succ]
  exact ⟨by simp, hattn,
    C5_attention_no_blend pPick 0 "fz" [scW] [(1 : ℚ)] (by simp) hattn⟩

/-- The raw graph weights keep the node-state key column. -/
theorem graphRawWeights_keys (states : List (String × NodeState)) :
    (graphRawWeights states).map Prod.fst = states.map Prod.fst := by
  unfold graphRawWeights
  rw [List.map_map]
  exact List.map_congr_left (fun p _ => rfl)

/-- Normalization keeps the weight keys when every item id is already a key
(both the division branch and the uniform fallback only overwrite). -/
theorem graphNormalize_keys (fb1 : List FeedbackModel)
    (w0 : List (String × ℚ))
    (hk : ∀ f ∈ fb1, (w0.map Prod.fst).contains f.feedback_id = true) :
    (graphNormalize fb1 w0).map Prod.fst = w0.map Prod.fst := by
  unfold graphNormalize
  dsimp only
  split
  · rw [foldl_dictInsert_const (1 / (fb1.length : ℚ)) fb1 w0 hk, List.map_map]
    refine List.map_congr_left (fun q _ => ?_)
    dsimp only [Function.comp]
    split
    · rfl
    · rfl
  · rw [List.map_map]
    exact List.map_congr_left (fun p _ => rfl)

/-- With distinct ids, the propagated node states are keyed by the input ids. -/
theorem graphStates_keys (threshold : ℚ) (maxIter : ℕ) (now : ℚ)
    (feedbacks : List FeedbackModel)
    (hnd : (feedbacks.map FeedbackModel.feedback_id).Nodup) :
    (graphNodeStates threshold maxIter now feedbacks).1.map Prod.fst =
      feedbacks.map FeedbackModel.feedback_id := by
  unfold graphNodeStates propagate_information
  dsimp only
  rw [propagateLoop_keys, initNodeStates_eq now feedbacks hnd]
  dsimp only
  rw [List.map_map]
  exact List.map_congr_left (fun f _ => rfl)

/-- The graph `fuse` on a non-empty input with distinct ids succeeds: it
returns the inputs with only the reliability cache applied, and a new item
whose REFINE relations point from the new id to every input id. -/
theorem graphFuse_ok (threshold : ℚ) (maxIter : ℕ) (now : ℚ) (fid : String)
    (feedbacks : List FeedbackModel) (hne : feedbacks ≠ [])
    (hnd : (feedbacks.map FeedbackModel.feedback_id).Nodup) :
    ∃ fused : FeedbackModel,
      graphFuse threshold maxIter now fid feedbacks =
        Except.ok (fused, feedbacks.map (cacheRel now)) ∧
      fused.relations.map (fun r => r.relation_type) =
        List.replicate feedbacks.length RelationType.refine ∧
      fused.relations.map (fun r => r.source_id) =
        List.replicate feedbacks.length fid ∧
      fused.relations.map (fun r => r.target_id) =
        feedbacks.map FeedbackModel.feedback_id := by
  have hsnd : (graphNodeStates threshold maxIter now feedbacks).2 =
      feedbacks.map (cacheRel now) :=
    propagate_information_snd _ _ _ _
  have hkeys0 := graphStates_keys threshold maxIter now feedbacks hnd
  have hcont : ∀ f ∈ feedbacks.map (cacheRel now),
      ((graphRawWeights (graphNodeStates threshold maxIter now feedbacks).1).map
        Prod.fst).contains f.feedback_id = true := by
    intro f hf
    obtain ⟨f0, hf0, hfe⟩ := List.mem_map.mp hf
    rw [graphRawWeights_keys, hkeys0, ← hfe, cacheRel_feedback_id]
    exact contains_of_mem (List.mem_map_of_mem _ hf0)
  have hwkeys : (graphNormalize (feedbacks.map (cacheRel now))
      (graphRawWeights (graphNodeStates threshold maxIter now feedbacks).1)).map
        Prod.fst = feedbacks.map FeedbackModel.feedback_id := by
    rw [graphNormalize_keys _ _ hcont, graphRawWeights_keys, hkeys0]
  have hwne : graphNormalize (feedbacks.map (cacheRel now))
      (graphRawWeights (graphNodeStates threshold maxIter now feedbacks).1) ≠ [] := by
    intro h0
    have h1 : feedbacks.map FeedbackModel.feedback_id = [] := by
      rw [← hwkeys, h0]
      rfl
    exact hne (List.map_eq_nil_iff.mp h1)
  obtain ⟨best, hbest⟩ := Option.isSome_iff_exists.mp (dictArgmax_isSome _ hwne)
  have hbmem := dictArgmax_mem _ best hbest
  have hbid : best.1 ∈ feedbacks.map FeedbackModel.feedback_id := by
    rw [← hwkeys]
    exact List.mem_map_of_mem Prod.fst hbmem
  obtain ⟨f0, hf0, hid0⟩ := List.mem_map.mp hbid
  have hfind : (((feedbacks.map (cacheRel now)).find?
      (fun f => f.feedback_id == best.1)).isSome) = true := by
    refine find_isSome_of_mem (List.mem_map_of_mem (cacheRel now) hf0) ?_
    show ((cacheRel now f0).feedback_id == best.1) = true
    rw [cacheRel_feedback_id, hid0]
    exact beq_self_eq_true _
  obtain ⟨bf, hbf⟩ := Option.isSome_iff_exists.mp hfind
  unfold graphFuse
  rw [if_neg hne]
  dsimp only
  rw [hsnd, hbest]
  dsimp only
  rw [hbf]
  dsimp only
  generalize graphNormalize (feedbacks.map (cacheRel now))
    (graphRawWeights (graphNodeStates threshold maxIter now feedbacks).1) = W
  refine ⟨_, rfl, ?_, ?_, ?_⟩
  · dsimp only
    rw [List.map_map]
    have hcomp : ((fun r : RelationModel => r.relation_type) ∘
        (fun f : FeedbackModel => RelationModel.make fid f.feedback_id
          RelationType.refine ((dictGet W f.feedback_id).getD 0)
          [("fusion_weight", (dictGet W f.feedback_id).getD 0)])) =
        (fun f : FeedbackModel => RelationType.refine) := rfl
    rw [hcomp, List.map_const', List.length_map]
  · dsimp only
    rw [List.map_map]
    have hcomp : ((fun r : RelationModel => r.source_id) ∘
        (fun f : FeedbackModel => RelationModel.make fid f.feedback_id
          RelationType.refine ((dictGet W f.feedback_id).getD 0)
          [("fusion_weight", (dictGet W f.feedback_id).getD 0)])) =
        (fun f : FeedbackModel => fid) := rfl
    rw [hcomp, List.map_const', List.length_map]
  · dsimp only
    rw [List.map_map]
    have hcomp : ((fun r : RelationModel => r.target_id) ∘
        (fun f : FeedbackModel => RelationModel.make fid f.feedback_id
          RelationType.refine ((dictGet W f.feedback_id).getD 0)
          [("fusion_weight", (dictGet W f.feedback_id).getD 0)])) =
        FeedbackModel.feedback_id := rfl
    rw [hcomp]
    exact cached_ids now feedbacks

/-- Item with no stored reliability: the first read during fusion computes
and caches it. -/
def c6item : FeedbackModel :=
  sampleItem "c1" SourceType.humanDoctor FeedbackType.diagnostic "t" none []

/-- Counterexample for C6: the graph `fuse` does mutate its input — an item
entering with `reliability = None` comes back out of the call with
`reliability = 0.83` cached into its metadata by the lazy `get_reliability`
read, so the input is not identical to what it was before the call. -/
theorem C6_counterexample :
    c6item.metadata.reliability = none ∧
    (graphFuse (1/2) 3 0 "gz" [c6item]).toOption.map Prod.snd =
      some [cacheRel 0 c6item] ∧
    (cacheRel 0 c6item).metadata.reliability = some (83/100) ∧
    cacheRel 0 c6item ≠ c6item := by
  obtain ⟨fused, heq, -, -, -⟩ :=
    graphFuse_ok (1/2) 3 0 "gz" [c6item] (by simp) (by simp)
  have h3 : (cacheRel 0 c6item).metadata.reliability = some (83/100) := by
    rw [cacheRel_eq]
    norm_num [relVal, FeedbackModel.get_reliability,
      MetadataModel.calculate_reliability, c6item, sampleItem, max_def]
  refine ⟨rfl, ?_, h3, ?_⟩
  · rw [heq]
    rfl
  · intro hc
    rw [hc] at h3
    exact Option.noConfusion h3

/-- C6 (amended): graph fusion creates a new item carrying the REFINE
relations (one per input, from the new id to that input's id) and touches its
inputs in exactly one way — the lazy reliability read caches its result into
each input's `metadata.reliability`; id, content, relations and tags of every
input are unchanged, and an input whose reliability was already set is
returned fully unchanged. -/
theorem C6_fusion_frame (threshold : ℚ) (maxIter : ℕ) (now : ℚ) (fid : String)
    (feedbacks : List FeedbackModel) (hne : feedbacks ≠ [])
    (hnd : (feedbacks.map FeedbackModel.feedback_id).Nodup) :
    (∀ f ∈ feedbacks,
      (cacheRel now f).feedback_id = f.feedback_id ∧
      (cacheRel now f).content = f.content ∧
      (cacheRel now f).relations = f.relations ∧
      (cacheRel now f).metadata.tags = f.metadata.tags ∧
      (∀ r : ℚ, f.metadata.reliability = some r → cacheRel now f = f)) ∧
    ∃ fused : FeedbackModel,
      graphFuse threshold maxIter now fid feedbacks =
        Except.ok (fused, feedbacks.map (cacheRel now)) ∧
      fused.relations.map (fun r => r.relation_type) =
        List.replicate feedbacks.length RelationType.refine ∧
      fused.relations.map (fun r => r.source_id) =
        List.replicate feedbacks.length fid ∧
      fused.relations.map (fun r => r.target_id) =
        feedbacks.map FeedbackModel.feedback_id := by
  refine ⟨fun f hf => ⟨cacheRel_feedback_id now f, ?_, ?_, ?_,
      fun r hr => cacheRel_of_some hr⟩,
    graphFuse_ok threshold maxIter now fid feedbacks hne hnd⟩
  · rw [cacheRel_eq]
  · rw [cacheRel_eq]
  · rw [cacheRel_eq]

/-- Witness for C6 at a concrete input. -/
theorem C6_fusion_frame_witness :
    ([scA1] : List FeedbackModel) ≠ [] ∧
    ([scA1].map FeedbackModel.feedback_id).Nodup ∧
    ((∀ f ∈ ([scA1] : List FeedbackModel),
      (cacheRel 0 f).feedback_id = f.feedback_id ∧
      (cacheRel 0 f).content = f.content ∧
      (cacheRel 0 f).relations = f.relations ∧
      (cacheRel 0 f).metadata.tags = f.metadata.tags ∧
      (∀ r : ℚ, f.metadata.reliability = some r → cacheRel 0 f = f)) ∧
    ∃ fused : FeedbackModel,
      graphFuse (1/2) 3 0 "gz" [scA1] =
        Except.ok (fused, [scA1].map (cacheRel 0)) ∧
      fused.relations.map (fun r => r.relation_type) =
        List.replicate [scA1].length RelationType.refine ∧
      fused.relations.map (fun r => r.source_id) =
        List.replicate [scA1].length "gz" ∧
      fused.relations.map (fun r => r.target_id) =
        [scA1].map FeedbackModel.feedback_id) :=
  ⟨by simp, by simp, C6_fusion_frame (1/2) 3 0 "gz" [scA1] (by simp) (by simp)⟩
